import Mathlib

/-!
Verification of the ns-pond ingestion-workflow core: a shallow embedding of
the identifier data model, the PubMed id-converter client, the Pubget
download extractor, the download workflow stage, and the pipeline
orchestrator, together with theorems settling the specification claims.

External collaborators (HTTP clients, the pubget library, the filesystem,
and the cache index persistence layer, whose implementation module is not
part of the core sources) are modelled as explicit environment parameters:
each embedded function receives the collaborator functions it calls as an
argument, exactly at the call boundary visible in the source.

Python `ValueError` raises at the orchestrator's missing-input sites realise
what the specification's error taxonomy names `MissingInputError`; the
embedding gives each raise site the taxonomy constructor that the
specification assigns to it.
-/

namespace Ingestion

/-- Python `str.strip()` restricted to ASCII whitespace: drop whitespace
characters from both ends of the string. -/
def pyStrip (s : String) : String :=
  ⟨(s.data.dropWhile Char.isWhitespace).reverse.dropWhile Char.isWhitespace |>.reverse⟩

/-- Python `str.isdigit()` on ASCII data: non-empty and every character a
decimal digit. -/
def pyIsDigit (s : String) : Bool :=
  !s.data.isEmpty && s.data.all Char.isDigit

/-- Numeric value of a decimal digit string, as computed by Python
`int(value)` on an all-digit string. -/
def pyIntOfDigits (s : String) : Nat :=
  s.data.foldl (fun n c => n * 10 + (c.toNat - 48)) 0

/-- Decimal printing with explicit fuel (any fuel above the input
suffices). -/
def pyDigitsOfNatAux : Nat → Nat → List Char
  | 0, _ => []
  | fuel + 1, n =>
    if n < 10 then [Char.ofNat (n + 48)]
    else pyDigitsOfNatAux fuel (n / 10) ++ [Char.ofNat (n % 10 + 48)]

/-- Decimal printing, as computed by Python `str(n)` for a natural number:
most significant digit first, no leading zeros, `"0"` for zero. -/
def pyDigitsOfNat (n : Nat) : List Char :=
  pyDigitsOfNatAux (n + 1) n

/-- Python `str(n)` for a natural number. -/
def pyStrOfNat (n : Nat) : String :=
  ⟨pyDigitsOfNat n⟩

/-- ASCII lowercase of one character (Python `str.lower` on ASCII data). -/
def pyCharLower (c : Char) : Char :=
  if 65 ≤ c.toNat ∧ c.toNat ≤ 90 then Char.ofNat (c.toNat + 32) else c

/-- ASCII lowercase of a string. -/
def pyLower (s : String) : String :=
  ⟨s.data.map pyCharLower⟩

/-- ASCII uppercase of one character (Python `str.upper` on ASCII data). -/
def pyCharUpper (c : Char) : Char :=
  if 97 ≤ c.toNat ∧ c.toNat ≤ 122 then Char.ofNat (c.toNat - 32) else c

/-- ASCII uppercase of a string. -/
def pyUpper (s : String) : String :=
  ⟨s.data.map pyCharUpper⟩

/-- Python `str.startswith`. -/
def pyStartsWith (s pre : String) : Bool :=
  pre.data.isPrefixOf s.data

/-- Python slicing `s[n:]` (drop the first `n` characters). -/
def pyDrop (s : String) (n : Nat) : String :=
  ⟨s.data.drop n⟩

/-- Python truthiness of an optional string: `None` and `""` are falsy. -/
def strTruthy : Option String → Bool
  | none => false
  | some s => !(s == "")

/-- Association-list update with Python `dict` semantics: assigning to an
existing key replaces its value in place (insertion order kept), assigning a
fresh key appends it. -/
def dictInsert {α : Type} (d : List (String × α)) (k : String) (v : α) :
    List (String × α) :=
  if d.any (fun p => p.1 == k) then
    d.map (fun p => if p.1 == k then (k, v) else p)
  else
    d ++ [(k, v)]

/-- Lookup in an association list (first match), Python `dict.get`. -/
def dictGet {α : Type} (d : List (String × α)) (k : String) : Option α :=
  match d.find? (fun p => p.1 == k) with
  | some p => some p.2
  | none => none

/-- Python `dict.setdefault(k, v)`: insert only when the key is absent. -/
def dictSetdefault {α : Type} (d : List (String × α)) (k : String) (v : α) :
    List (String × α) :=
  if d.any (fun p => p.1 == k) then d else d ++ [(k, v)]

/-! ## Data model (`ingestion_workflow.models`) -/

/-- One article's set of known external ids, with the externally assigned
deterministic `hash_id` (module `models/ids.py`; the collection fields the
claims use). -/
structure Identifier where
  pmid : Option String := none
  pmcid : Option String := none
  doi : Option String := none
  other_ids : List (String × String) := []
  hash_id : String := ""
  deriving Repr, DecidableEq

/-- The ordered identifier collection (`Identifiers`); the orchestrator and
workflow code accesses its underlying list as `.identifiers`. -/
structure Identifiers where
  identifiers : List Identifier := []
  deriving Repr, DecidableEq

/-- A downloaded artifact descriptor (`models/download.py::DownloadedFile`). -/
structure DownloadedFile where
  file_path : String
  file_type : String
  content_type : String
  source : String
  md5_hash : String
  deriving Repr, DecidableEq

/-- Per-identifier outcome of a download attempt
(`models/download.py::DownloadResult`); `source` carries the
`DownloadSource` enum's string value. -/
structure DownloadResult where
  identifier : Identifier
  source : String
  success : Bool
  files : List DownloadedFile := []
  error_message : Option String := none
  deriving Repr, DecidableEq

/-- Article metadata; only the `title` field is touched by the orchestrator's
placeholder construction. -/
structure ArticleMetadata where
  title : String
  deriving Repr, DecidableEq

/-- Extraction bundle paired with placeholder metadata
(`ArticleExtractionBundle`); `article_data` carries the cached extraction
content. -/
structure ArticleExtractionBundle where
  article_data : String
  article_metadata : ArticleMetadata
  deriving Repr, DecidableEq

/-- The resolved settings object consumed by the core (configuration loading
is an external collaborator; these are exactly the fields the orchestrator
and download stage read). -/
structure Settings where
  stages : Option (List String) := none
  manifest_path : Option String := none
  dry_run : Bool := false
  use_cached_inputs : Bool := false
  cache_only_mode : Bool := false
  download_sources : List String := []
  data_root : String := ""

/-- Error taxonomy: each constructor marks the Python raise sites that the
specification's taxonomy assigns that name (`MissingInputError` for the
orchestrator's missing-input `ValueError`s, invalid-configuration
`ValueError`s, `FileNotFoundError`, `AssertionError`). -/
inductive PErr where
  | missingInput : String → PErr
  | invalidConfig : String → PErr
  | fileNotFound : String → PErr
  | assertionError : String → PErr
  deriving Repr, DecidableEq

/-! ## Pubget extractor (`extractors/pubget_extractor.py`) -/

/-- The pubget library's exit codes (`pubget._typing.ExitCode`). -/
inductive ExitCode where
  | COMPLETED
  | INCOMPLETE
  | ERROR
  deriving Repr, DecidableEq

/-- External collaborators of `PubgetExtractor.download`: the pubget library
calls (`download_pmcids`, `extract_articles`) and the filesystem reads of
`_index_articles` / `_build_success`. An `.error` return models a raised
exception at that call site. -/
structure PubgetEnv where
  download_pmcids : List Nat → Except String (String × ExitCode)
  extract_articles : String → Except String (String × ExitCode)
  article_index : String → List (String × String)
  is_file : String → Bool
  read_md5 : String → String

namespace PubgetExtractor

/-- `PubgetExtractor._normalize_pmcid`: trim, uppercase, strip a `PMC`
prefix, trim again, require an all-digit remainder, and print `int(value)`
back (dropping leading zeros). -/
def normalize_pmcid (pmcid : Option String) : Option String :=
  match pmcid with
  | none => none
  | some s =>
    if s == "" then none
    else
      let value := pyUpper (pyStrip s)
      let value := if pyStartsWith value "PMC" then pyDrop value 3 else value
      let value := pyStrip value
      if !(pyIsDigit value) then none
      else some (pyStrOfNat (pyIntOfDigits value))

/-- `PubgetExtractor._build_failure`. -/
def build_failure (identifier : Identifier) (message : String) : DownloadResult :=
  { identifier := identifier
    source := "pubget"
    success := false
    files := []
    error_message := some message }

/-- `PubgetExtractor._downloaded_file`. -/
def downloaded_file (env : PubgetEnv) (path : String) (file_type : String) :
    DownloadedFile :=
  { file_path := path
    file_type := file_type
    content_type := "application/xml"
    source := "pubget"
    md5_hash := env.read_md5 path }

/-- `PubgetExtractor._build_success`: collect the expected artifact files,
succeed only when none are missing, and compose the warning into the error
message. -/
def build_success (env : PubgetEnv) (identifier : Identifier)
    (article_dir : String) (combined_warning : Option String) : DownloadResult :=
  let article_xml := article_dir ++ "/article.xml"
  let fm1 : List DownloadedFile × List String :=
    if env.is_file article_xml then ([downloaded_file env article_xml "xml"], [])
    else ([], ["article.xml"])
  let tables_xml := article_dir ++ "/tables/tables.xml"
  let fm2 : List DownloadedFile × List String :=
    if env.is_file tables_xml then (fm1.1 ++ [downloaded_file env tables_xml "xml"], fm1.2)
    else (fm1.1, fm1.2 ++ ["tables/tables.xml"])
  let success := fm2.2.isEmpty
  let error_message : Option String :=
    if fm2.2.isEmpty then none
    else some ("Pubget output missing expected files: " ++
      String.intercalate ", " fm2.2 ++ ".")
  let error_message : Option String :=
    match combined_warning, error_message with
    | none, e => e
    | some w, none => some w
    | some w, some e => some (pyStrip (w ++ " " ++ e))
  { identifier := identifier
    source := "pubget"
    success := success
    files := fm2.1
    error_message := error_message }

/-- `PubgetExtractor._ordered_results`: one result per input position, the
recorded one when present, otherwise a failure with the default message.
The `results_by_index` dict is modelled as a partial map on indices. -/
def ordered_results (identifiers : Identifiers)
    (results_by_index : Nat → Option DownloadResult)
    (default_message : String) : List DownloadResult :=
  identifiers.identifiers.enum.map fun p =>
    match results_by_index p.1 with
    | some result => result
    | none => build_failure p.2 default_message

/-- One write of `pmcid_map.setdefault(normalized, []).append(index)`. -/
def pmcidMapStep (m : List (String × List Nat)) (k : String) (idx : Nat) :
    List (String × List Nat) :=
  if m.any (fun p => p.1 == k) then
    m.map (fun p => if p.1 == k then (p.1, p.2 ++ [idx]) else p)
  else m ++ [(k, [idx])]

/-- The pmcid-map construction loop of `download`, including the
`assert normalized is not None` guard. -/
def buildPmcidMap : List (Nat × Identifier) → List (String × List Nat) →
    Except PErr (List (String × List Nat))
  | [], m => .ok m
  | (index, identifier) :: rest, m =>
    match normalize_pmcid identifier.pmcid with
    | none => .error (.assertionError "Identifiers must include PMCIDs")
    | some normalized => buildPmcidMap rest (pmcidMapStep m normalized index)

/-- Point update of the `results_by_index` dict. -/
def setResult (f : Nat → Option DownloadResult) (i : Nat) (r : DownloadResult) :
    Nat → Option DownloadResult :=
  fun j => if j == i then some r else f j

/-- The failure-assignment loops of `download`: mark every index recorded in
`pmcid_map` as failed with the given message. -/
def failAll (identifiers : Identifiers) (pmcid_map : List (String × List Nat))
    (message : String) (f : Nat → Option DownloadResult) :
    Nat → Option DownloadResult :=
  pmcid_map.foldl (fun f p =>
    p.2.foldl (fun f idx =>
      match identifiers.identifiers[idx]? with
      | some identifier => setResult f idx (build_failure identifier message)
      | none => f) f) f

/-- The success/failure assignment loop at the end of `download`. -/
def assignArticles (env : PubgetEnv) (identifiers : Identifiers)
    (pmcid_map : List (String × List Nat)) (article_index : List (String × String))
    (combined_warning : Option String) (f : Nat → Option DownloadResult) :
    Nat → Option DownloadResult :=
  pmcid_map.foldl (fun f p =>
    p.2.foldl (fun f idx =>
      match identifiers.identifiers[idx]? with
      | none => f
      | some identifier =>
        match dictGet article_index p.1 with
        | none =>
          setResult f idx (build_failure identifier (combined_warning.getD
            "Pubget did not produce output for the requested PMCID."))
        | some dir =>
          setResult f idx (build_success env identifier dir combined_warning)) f) f

/-- `PubgetExtractor.download` (the pubget calls and filesystem supplied by
`env`). -/
def download (env : PubgetEnv) (identifiers : Identifiers) :
    Except PErr (List DownloadResult) :=
  if identifiers.identifiers.isEmpty then .ok []
  else
    match buildPmcidMap identifiers.identifiers.enum [] with
    | .error e => .error e
    | .ok pmcid_map =>
      let results_by_index : Nat → Option DownloadResult := fun _ => none
      if pmcid_map.isEmpty then
        .ok (ordered_results identifiers results_by_index
          "No valid PMCIDs were provided for Pubget download.")
      else
        let pmcids_to_fetch :=
          ((pmcid_map.map Prod.fst).mergeSort (fun a b => a ≤ b)).map pyIntOfDigits
        match env.download_pmcids pmcids_to_fetch with
        | .error exc =>
          let failure_message := "Pubget download failed: " ++ exc
          .ok (ordered_results identifiers
            (failAll identifiers pmcid_map failure_message results_by_index)
            failure_message)
        | .ok (articlesets_dir, download_code) =>
          if download_code == ExitCode.ERROR then
            let failure_message :=
              "Pubget reported an error while downloading PMCIDs."
            .ok (ordered_results identifiers
              (failAll identifiers pmcid_map failure_message results_by_index)
              failure_message)
          else
            match env.extract_articles articlesets_dir with
            | .error exc =>
              let failure_message := "Pubget extraction failed: " ++ exc
              .ok (ordered_results identifiers
                (failAll identifiers pmcid_map failure_message results_by_index)
                failure_message)
            | .ok (articles_dir, extract_code) =>
              if extract_code == ExitCode.ERROR then
                let failure_message :=
                  "Pubget failed to extract downloaded articles."
                .ok (ordered_results identifiers
                  (failAll identifiers pmcid_map failure_message results_by_index)
                  failure_message)
              else
                let warning_messages :=
                  (if download_code == ExitCode.INCOMPLETE then
                    ["Pubget reported an incomplete download; some PMCIDs may be missing."]
                  else []) ++
                  (if extract_code == ExitCode.INCOMPLETE then
                    ["Pubget reported incomplete article extraction; outputs may be partial."]
                  else [])
                let combined_warning : Option String :=
                  if warning_messages.isEmpty then none
                  else some (String.intercalate " " warning_messages)
                let article_index := env.article_index articles_dir
                .ok (ordered_results identifiers
                  (assignArticles env identifiers pmcid_map article_index
                    combined_warning results_by_index)
                  "Pubget did not return content for this identifier.")

end PubgetExtractor

/-! ## PubMed id-converter client (`clients/pubmed.py`)

The identifier-collection module (`models/ids.py`) is not among the core
sources; its `lookup` method is therefore an environment parameter that maps
the current collection and a (value, key) query to the position of the
matching identifier, and in-place enrichment of the shared `Identifier`
objects is modelled as a positional list update. Field normalization on
assignment (also part of the absent module) is not modelled: the claims here
concern only preservation of already-populated fields, which assignment
normalization cannot affect. -/

/-- One record of the id-converter JSON payload; `release_date` carries the
`release-date` key. Values are optional strings with Python truthiness
(`""` falsy). -/
structure IdconvRecord where
  status : Option String := none
  error : Option String := none
  requested_id : Option String := none
  pmid : Option String := none
  pmcid : Option String := none
  doi : Option String := none
  mid : Option String := none
  aiid : Option String := none
  version : Option String := none
  release_date : Option String := none
  deriving Repr, DecidableEq

/-- External collaborators of `PubMedClient`: the collection's `lookup`
(from the absent `models/ids.py`) and the HTTP request returning the payload
records. -/
structure PubMedEnv where
  lookup : List Identifier → String → String → Option Nat
  request : List (String × String) → List IdconvRecord

namespace PubMedClient

/-- `PubMedClient._SUPPORTED_ID_TYPES`. -/
def SUPPORTED_ID_TYPES : List String := ["pmid", "pmcid", "doi"]

/-- `IDCONV_BATCH_SIZE`. -/
def IDCONV_BATCH_SIZE : Nat := 200

/-- `getattr(identifier, id_type)` for the three supported field names. -/
def getField (identifier : Identifier) (id_type : String) : Option String :=
  if id_type == "pmid" then identifier.pmid
  else if id_type == "pmcid" then identifier.pmcid
  else if id_type == "doi" then identifier.doi
  else none

/-- `PubMedClient.validate_ids`: the requested type must be supported and
every identifier must populate that field; both failures are `ValueError`
raises. -/
def validate_ids (id_type : String) (identifiers : List Identifier) :
    Except PErr Unit :=
  if !(SUPPORTED_ID_TYPES.contains id_type) then
    .error (.invalidConfig
      "PubMed ID lookups support only pmid, pmcid, or doi.")
  else if identifiers.any (fun identifier => (getField identifier id_type).isNone) then
    .error (.invalidConfig
      ("All identifiers must provide a " ++ id_type.toUpper ++ " for lookup."))
  else .ok ()

/-- `PubMedClient._collect_values`. -/
def collect_values (id_type : String) (identifiers : List Identifier) :
    List String :=
  (identifiers.filter (fun i => strTruthy (getField i id_type))).map
    (fun i => pyStrip ((getField i id_type).getD ""))

/-- `PubMedClient._build_params`. -/
def build_params (email tool : String) (id_type : String) (batch : List String) :
    List (String × String) :=
  let params := [("ids", String.intercalate "," batch), ("format", "json"),
    ("email", email), ("tool", tool)]
  if SUPPORTED_ID_TYPES.contains id_type then params ++ [("idtype", id_type)]
  else params

/-- `PubMedClient._store_extra_metadata`: `setdefault` each truthy extra
field into `other_ids` (present keys are kept). -/
def store_extra_metadata (identifier : Identifier) (record : IdconvRecord) :
    Identifier :=
  let extra_fields : List (String × Option String) :=
    [("mid", record.mid), ("aiid", record.aiid), ("version", record.version),
      ("release-date", record.release_date)]
  extra_fields.foldl (fun identifier fv =>
    if strTruthy fv.2 then
      { identifier with
        other_ids := dictSetdefault identifier.other_ids fv.1 (fv.2.getD "") }
    else identifier) identifier

/-- The per-identifier enrichment of `_apply_records`: fill pmid/pmcid/doi
only when currently `None`, then store the extra metadata. -/
def apply_record_fields (identifier : Identifier) (record : IdconvRecord) :
    Identifier :=
  let identifier :=
    if strTruthy record.pmid && identifier.pmid.isNone then
      { identifier with pmid := some (record.pmid.getD "") }
    else identifier
  let identifier :=
    if strTruthy record.pmcid && identifier.pmcid.isNone then
      { identifier with pmcid := some (record.pmcid.getD "") }
    else identifier
  let identifier :=
    if strTruthy record.doi && identifier.doi.isNone then
      { identifier with doi := some (record.doi.getD "") }
    else identifier
  store_extra_metadata identifier record

/-- The identifier lookup of `_apply_records`, including the
`PMC`-prefixed retry for pmcid lookups. -/
def lookup_record_target (env : PubMedEnv) (id_type : String)
    (ids : List Identifier) (requested_id : String) : Option Nat :=
  match env.lookup ids requested_id id_type with
  | some i => some i
  | none =>
    if id_type == "pmcid" then
      env.lookup ids
        (if pyStartsWith (pyUpper requested_id) "PMC" then requested_id
        else "PMC" ++ requested_id) "pmcid"
    else none

/-- One loop iteration of `_apply_records`: skip error records and records
without a requested id, locate the target identifier, and enrich it in
place. -/
def apply_one (env : PubMedEnv) (id_type : String)
    (ids : List Identifier) (record : IdconvRecord) : List Identifier :=
  if record.status == some "error" || strTruthy record.error then ids
  else if !strTruthy record.requested_id then ids
  else
    match lookup_record_target env id_type ids (record.requested_id.getD "") with
    | none => ids
    | some i =>
      match ids[i]? with
      | none => ids
      | some identifier => ids.set i (apply_record_fields identifier record)

/-- `PubMedClient._apply_records`. -/
def apply_records (env : PubMedEnv) (id_type : String)
    (identifiers : List Identifier) (records : List IdconvRecord) :
    List Identifier :=
  records.foldl (apply_one env id_type) identifiers

/-- Batching of the collected values (`values[index : index + IDCONV_BATCH_SIZE]`). -/
def batchesOf {α : Type} (n : Nat) (xs : List α) : List (List α) :=
  if _h : xs.isEmpty ∨ n = 0 then []
  else
    have : xs.length - n < xs.length := by
      rcases xs with _ | ⟨x, xs⟩
      · simp at _h
      · have hn : n ≠ 0 := by
          intro h0
          exact _h (Or.inr h0)
        simp [List.length]
        omega
    xs.take n :: batchesOf n (xs.drop n)
termination_by xs.length
decreasing_by simpa using this

/-- `PubMedClient.get_ids_by_type`: collect values, batch them, issue one
request per batch and apply its records; also returns the list of issued
request parameter sets. -/
def get_ids_by_type (env : PubMedEnv) (email tool : String) (id_type : String)
    (identifiers : List Identifier) :
    List Identifier × List (List (String × String)) :=
  let values := collect_values id_type identifiers
  if values.isEmpty then (identifiers, [])
  else
    let batches := batchesOf IDCONV_BATCH_SIZE values
    batches.foldl (fun acc batch =>
      let params := build_params email tool id_type batch
      let payload := env.request params
      (apply_records env id_type acc.1 payload, acc.2 ++ [params]))
      (identifiers, [])

/-- `PubMedClient.get_ids`: validate, then query; returns the outcome, the
resulting collection, and the issued requests. -/
def get_ids (env : PubMedEnv) (email tool : String) (id_type : String)
    (identifiers : List Identifier) :
    Except PErr Unit × List Identifier × List (List (String × String)) :=
  match validate_ids id_type identifiers with
  | .error e => (.error e, identifiers, [])
  | .ok _ =>
    let r := get_ids_by_type env email tool id_type identifiers
    (.ok (), r.1, r.2)

end PubMedClient

/-! ## Download workflow stage (`workflow/download.py`)

The cache service module (`services/cache.py`) ships only as a design
docstring in the sources; its `partition_cached_downloads` and
`cache_download_results` entry points are therefore environment parameters.
`run_downloads` additionally returns the accumulated list of results handed
to `cache_download_results`, so that what is persisted is observable. -/

/-- External collaborators of `run_downloads`: the per-source extractor
attribute `_SUPPORTED_IDS` (no shipped extractor defines it, hence the
`Option`), the cache partition, and the extractor download call. -/
structure DownloadEnv where
  supported_ids : String → Option (List String)
  partition_cached : String → List Identifier → List DownloadResult × List Identifier
  extractor_download : String → List Identifier → List DownloadResult

namespace DownloadStage

/-- `getattr(identifier, field, None)` for the identifier fields. -/
def idAttr (identifier : Identifier) (field : String) : Option String :=
  if field == "pmid" then identifier.pmid
  else if field == "pmcid" then identifier.pmcid
  else if field == "doi" then identifier.doi
  else none

/-- `_partition_supported_identifiers`: split the pending identifiers by
whether any supported field is populated; with no supported-field list,
everything is supported. -/
def partition_supported (supported_fields : Option (List String))
    (identifiers : List Identifier) : List Identifier × List Identifier :=
  match supported_fields with
  | none => (identifiers, [])
  | some [] => (identifiers, [])
  | some fields =>
    (identifiers.filter (fun i => fields.any (fun f => strTruthy (idAttr i f))),
     identifiers.filter (fun i => !(fields.any (fun f => strTruthy (idAttr i f)))))

/-- `_successful_hashes`. -/
def successful_hashes (results : List DownloadResult) : List String :=
  (results.filter (fun result => result.success)).map
    (fun result => result.identifier.hash_id)

/-- `_identifiers_from_hashes`. -/
def identifiers_from_hashes (pending : List Identifier)
    (success_hashes : List String) : List Identifier :=
  pending.filter (fun identifier =>
    !(success_hashes.contains identifier.hash_id))

/-- One iteration of the `run_downloads` source loop: returns the results
appended to `collected_results`, the results handed to
`cache_download_results`, and the `remaining` identifiers carried to the
next source. -/
def processSource (env : DownloadEnv) (s : Settings) (source : String)
    (remaining : List Identifier) :
    List DownloadResult × List DownloadResult × List Identifier :=
  let su := partition_supported (env.supported_ids source) remaining
  if su.1.isEmpty then ([], [], su.2)
  else
    let cm := env.partition_cached source su.1
    if cm.2.isEmpty then (cm.1, [], su.2)
    else if s.cache_only_mode then (cm.1, [], su.2 ++ cm.2)
    else
      let download_results := env.extractor_download source cm.2
      let successes := download_results.filter (fun result => result.success)
      let failures := identifiers_from_hashes cm.2 (successful_hashes successes)
      (cm.1 ++ download_results, successes, su.2 ++ failures)

/-- The source loop of `run_downloads`, threading `remaining`,
`collected_results`, and the persisted-results log. -/
def run_downloads_go (env : DownloadEnv) (s : Settings) :
    List String → List Identifier → List DownloadResult → List DownloadResult →
    List DownloadResult × List DownloadResult
  | [], _, collected, persisted => (collected, persisted)
  | source :: rest, remaining, collected, persisted =>
    if remaining.isEmpty then (collected, persisted)
    else
      let step := processSource env s source remaining
      run_downloads_go env s rest step.2.2 (collected ++ step.1)
        (persisted ++ step.2.1)

/-- `run_downloads`: run the configured sources in order; the first
component is the returned result list, the second the results persisted to
the download cache. -/
def run_downloads (env : DownloadEnv) (s : Settings)
    (identifiers : Identifiers) : List DownloadResult × List DownloadResult :=
  run_downloads_go env s s.download_sources identifiers.identifiers [] []

end DownloadStage

/-! ## Pipeline orchestrator (`workflow/orchastrator.py`)

Stage producer functions and the cache indices (whose `DownloadIndex` /
`ExtractionIndex` record types live outside the core sources) are
environment parameters; an index lookup returns directly the `entry.result`
(respectively `entry.content`) payload the orchestrator reads off the entry.
`run_pipeline` also returns an execution trace listing each stage whose
handler was invoked, in order; every external producer call happens inside
a handler, so an empty trace means no stage work and no network work was
attempted. -/

/-- Opaque stand-in for the `create_analyses` payload
(`Dict[str, Dict[str, AnalysisCollection]]`), which no claim inspects. -/
abbrev Analyses := List (String × String)

/-- External collaborators of the orchestrator. -/
structure OrchEnv where
  gather : Settings → Identifiers
  load_manifest : String → Except PErr Identifiers
  run_downloads : Settings → Identifiers → List DownloadResult
  run_extraction : Settings → List DownloadResult → List ArticleExtractionBundle
  run_create_analyses : Settings → List ArticleExtractionBundle → Analyses
  download_index : Settings → String → String → Option DownloadResult
  extraction_index : Settings → String → String → Option String

/-- `PipelineState`. -/
structure PipelineState where
  identifiers : Option Identifiers := none
  downloads : Option (List DownloadResult) := none
  bundles : Option (List ArticleExtractionBundle) := none
  analyses : Option Analyses := none
  deriving Repr, DecidableEq

/-- Python truthiness of an optional list (`None` and `[]` falsy). -/
def listTruthy {α : Type} : Option (List α) → Bool
  | some (_ :: _) => true
  | _ => false

namespace Orchestrator

/-- `CANONICAL_STAGES`. -/
def CANONICAL_STAGES : List String :=
  ["gather", "download", "extract", "create_analyses", "upload", "sync"]

/-- The `requested` list of `_normalize_stages`: lowercase the truthy
entries, or the canonical list when `stages` is falsy. -/
def requestedStages (stages : Option (List String)) : List String :=
  match stages with
  | none => CANONICAL_STAGES
  | some l =>
    if l.isEmpty then CANONICAL_STAGES
    else (l.filter (fun stage => !(stage == ""))).map pyLower

/-- The `invalid` list of `_normalize_stages`: requested names outside the
canonical list. -/
def invalidStages (stages : Option (List String)) : List String :=
  (requestedStages stages).filter (fun stage => !(CANONICAL_STAGES.contains stage))

/-- The `requested_set` of `_normalize_stages`
(`set(requested) or set(CANONICAL_STAGES)`: an empty set falls back to the
canonical set). -/
def requestedSet (stages : Option (List String)) : List String :=
  if (requestedStages stages).isEmpty then CANONICAL_STAGES
  else requestedStages stages

/-- `_normalize_stages`: reject unknown names, then intersect the canonical
order with the requested set. -/
def normalize_stages (stages : Option (List String)) :
    Except PErr (List String) :=
  if !(invalidStages stages).isEmpty then
    .error (.invalidConfig ("Unknown stages requested: " ++
      String.intercalate ", " ((invalidStages stages).dedup.mergeSort (fun a b => a ≤ b))))
  else
    .ok (CANONICAL_STAGES.filter (fun stage => (requestedSet stages).contains stage))

/-- `_load_identifiers_from_manifest`: resolve the manifest path against the
data root and load it (existence and parsing live in the collaborator). -/
def load_identifiers_from_manifest (env : OrchEnv) (settings : Settings) :
    Except PErr Identifiers :=
  match settings.manifest_path with
  | none => .error (.missingInput
      "manifest_path must be provided when skipping gather.")
  | some manifest =>
    let manifest_path :=
      if manifest.startsWith "/" then manifest
      else settings.data_root ++ "/" ++ manifest
    env.load_manifest manifest_path

/-- `_seed_identifiers_from_manifest`: when `gather` is not selected, a
manifest is mandatory and seeds the state. -/
def seed_identifiers_from_manifest (env : OrchEnv) (settings : Settings)
    (stages : List String) (state : PipelineState) :
    Except PErr PipelineState :=
  if stages.contains "gather" then .ok state
  else
    match settings.manifest_path with
    | none => .error (.missingInput
        "Gather stage not selected. Please provide manifest_path in settings or via --manifest.")
    | some _ =>
      match load_identifiers_from_manifest env settings with
      | .error e => .error e
      | .ok identifiers => .ok { state with identifiers := some identifiers }

/-- `_ensure_identifiers`. -/
def ensure_identifiers (env : OrchEnv) (settings : Settings)
    (state : PipelineState) : Except PErr PipelineState :=
  if state.identifiers.isSome then .ok state
  else if strTruthy settings.manifest_path then
    match load_identifiers_from_manifest env settings with
    | .error e => .error e
    | .ok identifiers => .ok { state with identifiers := some identifiers }
  else .error (.missingInput
    "Identifiers are required for this stage. Run the gather stage or provide a manifest.")

/-- The dict accumulated by `_hydrate_downloads_from_cache`, keyed by the
identifier hash (later sources overwrite earlier entries in place). -/
def hydrate_downloads_fold (env : OrchEnv) (settings : Settings)
    (idents : List Identifier) : List (String × DownloadResult) :=
  settings.download_sources.foldl (fun hydrated source_name =>
    idents.foldl (fun hydrated identifier =>
      match env.download_index settings source_name identifier.hash_id with
      | none => hydrated
      | some result => dictInsert hydrated identifier.hash_id result)
      hydrated) []

/-- `_hydrate_downloads_from_cache`. -/
def hydrate_downloads_from_cache (env : OrchEnv) (settings : Settings)
    (identifiers : Option Identifiers) : List DownloadResult :=
  match identifiers with
  | none => []
  | some c =>
    if c.identifiers.isEmpty then []
    else (hydrate_downloads_fold env settings c.identifiers).map Prod.snd

/-- `_ensure_downloads`. -/
def ensure_downloads (env : OrchEnv) (settings : Settings)
    (state : PipelineState) : Except PErr PipelineState :=
  if listTruthy state.downloads then .ok state
  else if !settings.use_cached_inputs then
    .error (.missingInput
      "Download results are required but missing. Re-run the download stage or enable cached inputs.")
  else
    match ensure_identifiers env settings state with
    | .error e => .error e
    | .ok state =>
      let hydrated := hydrate_downloads_from_cache env settings state.identifiers
      if hydrated.isEmpty then
        .error (.missingInput
          "No cached download results were found for the provided identifiers. Re-run the download stage.")
      else .ok { state with downloads := some hydrated }

/-- `_build_placeholder_metadata`. -/
def build_placeholder_metadata (identifier : Identifier) : ArticleMetadata :=
  if strTruthy identifier.doi then { title := identifier.doi.getD "" }
  else if strTruthy identifier.pmid then { title := identifier.pmid.getD "" }
  else if strTruthy identifier.pmcid then { title := identifier.pmcid.getD "" }
  else
    let label := String.intercalate " / "
      ((identifier.hash_id.splitOn "|").filter (fun part => !(part == "")))
    if !(label == "") then { title := label }
    else
      { title := if identifier.hash_id == "" then "Unknown Identifier"
        else identifier.hash_id }

/-- `_hydrate_bundles_from_cache`: group the downloads by source, look each
one up in that source's extraction index, and key the resulting bundles by
identifier hash. -/
def hydrate_bundles_from_cache (env : OrchEnv) (settings : Settings)
    (downloads : List DownloadResult) : List ArticleExtractionBundle :=
  if downloads.isEmpty then []
  else
    let downloads_by_source : List (String × List DownloadResult) :=
      downloads.foldl (fun m download =>
        if m.any (fun p => p.1 == download.source) then
          m.map (fun p =>
            if p.1 == download.source then (p.1, p.2 ++ [download]) else p)
        else m ++ [(download.source, [download])]) []
    let bundles : List (String × ArticleExtractionBundle) :=
      downloads_by_source.foldl (fun bundles sd =>
        sd.2.foldl (fun bundles download =>
          match env.extraction_index settings sd.1 download.identifier.hash_id with
          | none => bundles
          | some content =>
            dictInsert bundles download.identifier.hash_id
              { article_data := content
                article_metadata := build_placeholder_metadata download.identifier })
          bundles) []
    bundles.map Prod.snd

/-- `_ensure_bundles`. -/
def ensure_bundles (env : OrchEnv) (settings : Settings)
    (state : PipelineState) : Except PErr PipelineState :=
  if listTruthy state.bundles then .ok state
  else if !settings.use_cached_inputs then
    .error (.missingInput
      "Extraction bundles are required but missing. Re-run the extract stage or enable cached inputs.")
  else
    match ensure_downloads env settings state with
    | .error e => .error e
    | .ok state =>
      let hydrated := hydrate_bundles_from_cache env settings
        (state.downloads.getD [])
      if hydrated.isEmpty then
        .error (.missingInput
          "No cached extraction bundles were found. Re-run the extract stage.")
      else .ok { state with bundles := some hydrated }

/-- `_run_gather_stage`. -/
def run_gather_stage (env : OrchEnv) (settings : Settings)
    (state : PipelineState) : Except PErr PipelineState :=
  if settings.dry_run then .ok state
  else .ok { state with identifiers := some (env.gather settings) }

/-- `_run_download_stage`. -/
def run_download_stage (env : OrchEnv) (settings : Settings)
    (state : PipelineState) : Except PErr PipelineState :=
  if settings.dry_run then .ok state
  else
    match ensure_identifiers env settings state with
    | .error e => .error e
    | .ok state =>
      let downloads := env.run_downloads settings (state.identifiers.getD { })
      .ok { state with downloads := some downloads }

/-- `_run_extract_stage`. -/
def run_extract_stage (env : OrchEnv) (settings : Settings)
    (state : PipelineState) : Except PErr PipelineState :=
  if settings.dry_run then .ok state
  else
    match ensure_downloads env settings state with
    | .error e => .error e
    | .ok state =>
      let bundles := env.run_extraction settings (state.downloads.getD [])
      .ok { state with bundles := some bundles }

/-- `_run_create_analyses_stage`. -/
def run_create_analyses_stage (env : OrchEnv) (settings : Settings)
    (state : PipelineState) : Except PErr PipelineState :=
  if settings.dry_run then .ok state
  else
    match ensure_bundles env settings state with
    | .error e => .error e
    | .ok state =>
      let analyses := env.run_create_analyses settings (state.bundles.getD [])
      .ok { state with analyses := some analyses }

/-- `_run_upload_stage` (unimplemented passthrough). -/
def run_upload_stage (_settings : Settings) (state : PipelineState) :
    Except PErr PipelineState :=
  .ok state

/-- `_run_sync_stage` (unimplemented passthrough). -/
def run_sync_stage (_settings : Settings) (state : PipelineState) :
    Except PErr PipelineState :=
  .ok state

/-- The `stage_handlers` dispatch table of `run_pipeline`. -/
def stage_handler (env : OrchEnv) (stage : String) :
    Settings → PipelineState → Except PErr PipelineState :=
  if stage == "gather" then run_gather_stage env
  else if stage == "download" then run_download_stage env
  else if stage == "extract" then run_extract_stage env
  else if stage == "create_analyses" then run_create_analyses_stage env
  else if stage == "upload" then run_upload_stage
  else if stage == "sync" then run_sync_stage
  else fun _ _ => .error (.invalidConfig "unknown stage")

/-- The stage loop of `run_pipeline`; the trace records each stage whose
handler was invoked, in invocation order. -/
def run_stages_loop (env : OrchEnv) (settings : Settings) :
    List String → PipelineState → List String →
    Except PErr PipelineState × List String
  | [], state, trace => (.ok state, trace)
  | stage :: rest, state, trace =>
    match stage_handler env stage settings state with
    | .error e => (.error e, trace ++ [stage])
    | .ok state => run_stages_loop env settings rest state (trace ++ [stage])

/-- `run_pipeline`: normalize the stage selection, seed identifiers from the
manifest when `gather` is skipped, then run the selected handlers in order. -/
def run_pipeline (env : OrchEnv) (settings : Settings) :
    Except PErr PipelineState × List String :=
  match normalize_stages settings.stages with
  | .error e => (.error e, [])
  | .ok selected_stages =>
    match seed_identifiers_from_manifest env settings selected_stages { } with
    | .error e => (.error e, [])
    | .ok state => run_stages_loop env settings selected_stages state []

end Orchestrator

/-! ## Derived characterizations and concrete instances used by the
theorems -/

/-- The intermediate remainder of `_normalize_pmcid`: the trimmed,
uppercased input with a leading `PMC` stripped, trimmed again — the string
whose digit test decides whether a lookup key exists. -/
def pmcidRemainder (s : String) : String :=
  let value := pyUpper (pyStrip s)
  let value := if pyStartsWith value "PMC" then pyDrop value 3 else value
  pyStrip value

/-- The cached entry that survives when several sources hold one for the
same hash: scanning the sources in configuration order, the hit of the
last-listed source wins. -/
def lastSourceHit (env : OrchEnv) (settings : Settings)
    (sources : List String) (h : String) : Option DownloadResult :=
  sources.foldl (fun acc source_name =>
    match env.download_index settings source_name h with
    | none => acc
    | some result => some result) none

/-- `lastSourceHit` generalized over the starting accumulator. -/
def lastSourceHitFrom (env : OrchEnv) (settings : Settings)
    (acc : Option DownloadResult) (sources : List String) (h : String) :
    Option DownloadResult :=
  sources.foldl (fun acc source_name =>
    match env.download_index settings source_name h with
    | none => acc
    | some result => some result) acc

/-- The inner identifier loop of `_hydrate_downloads_from_cache` for one
source, abstracted over that source's index lookup. -/
def hydrateInner (f : String → Option DownloadResult)
    (idents : List Identifier) (d : List (String × DownloadResult)) :
    List (String × DownloadResult) :=
  idents.foldl (fun hydrated identifier =>
    match f identifier.hash_id with
    | none => hydrated
    | some result => dictInsert hydrated identifier.hash_id result) d

/-- Enrichment preorder on identifiers: every already-populated canonical
field keeps its value, and every key present in `other_ids` keeps its
value. -/
def preservesPopulated (a b : Identifier) : Prop :=
  (∀ v, a.pmid = some v → b.pmid = some v) ∧
  (∀ v, a.pmcid = some v → b.pmcid = some v) ∧
  (∀ v, a.doi = some v → b.doi = some v) ∧
  (∀ k v, dictGet a.other_ids k = some v → dictGet b.other_ids k = some v)

/-- Invariant of the pubget `results_by_index` dict: every recorded result
carries the input identifier of its position. -/
def resultInv (identifiers : Identifiers) (f : Nat → Option DownloadResult) :
    Prop :=
  ∀ (idx : Nat) (r : DownloadResult), f idx = some r →
    identifiers.identifiers[idx]? = some r.identifier

/-- An orchestrator environment with inert collaborators, used to
instantiate universally quantified theorems at a concrete point. -/
def trivialOrchEnv : OrchEnv :=
  { gather := fun _ => { identifiers := [] }
    load_manifest := fun _ => .error (.fileNotFound "manifest")
    run_downloads := fun _ _ => []
    run_extraction := fun _ _ => []
    run_create_analyses := fun _ _ => []
    download_index := fun _ _ _ => none
    extraction_index := fun _ _ _ => none }

/-- A pubget environment whose collaborator calls all succeed trivially. -/
def trivialPubgetEnv : PubgetEnv :=
  { download_pmcids := fun _ => .ok ("articlesets", ExitCode.COMPLETED)
    extract_articles := fun _ => .ok ("articles", ExitCode.COMPLETED)
    article_index := fun _ => []
    is_file := fun _ => false
    read_md5 := fun _ => "" }

/-- A PubMed environment that never finds an identifier and returns no
records. -/
def trivialPubMedEnv : PubMedEnv :=
  { lookup := fun _ _ _ => none
    request := fun _ => [] }

/-- A PubMed environment whose lookup always targets position 0 and whose
requests return no records. -/
def lookupFirstEnv : PubMedEnv :=
  { lookup := fun _ _ _ => some 0
    request := fun _ => [] }

/-- An id-converter record that offers a pmid, a conflicting doi and a
conflicting `mid` extra field. -/
def sampleRecord : IdconvRecord :=
  { requested_id := some "10.1234/example"
    pmid := some "99999"
    doi := some "10.9/zzz"
    mid := some "M2" }

/-- A sample identifier with only a DOI populated. -/
def doiOnlyIdentifier : Identifier :=
  { doi := some "10.1234/example", other_ids := [("mid", "M1")], hash_id := "hash-doi" }

/-- A sample identifier with only a PMID populated. -/
def pmidOnlyIdentifier : Identifier :=
  { pmid := some "12345", hash_id := "hash-pmid" }

/-- A sample identifier with a valid PMCID. -/
def pmcidIdentifier : Identifier :=
  { pmcid := some "PMC777", hash_id := "hash-pmc" }

/-- A download environment whose cache partition reports everything missing
and whose extractor fails every identifier. -/
def failingDownloadEnv : DownloadEnv :=
  { supported_ids := fun _ => none
    partition_cached := fun _ identifiers => ([], identifiers)
    extractor_download := fun source identifiers =>
      identifiers.map (fun identifier =>
        { identifier := identifier
          source := source
          success := false
          error_message := some "boom" }) }

/-- A cached download result attributed to a given source. -/
def cachedResult (source : String) : DownloadResult :=
  { identifier := pmidOnlyIdentifier, source := source, success := true }

/-- An orchestrator environment whose download index holds, for every
source, an entry for the hash `hash-pmid`. -/
def cacheOrchEnv : OrchEnv :=
  { trivialOrchEnv with
    download_index := fun _ source h =>
      if h == "hash-pmid" then some (cachedResult source) else none }

/-- Settings listing two download sources. -/
def multiSourceSettings : Settings :=
  { download_sources := ["pubget", "ace"] }

/-- Settings with cached-input hydration enabled and no configured
sources. -/
def cachedInputSettings : Settings :=
  { use_cached_inputs := true }

/-- A pipeline state already seeded with one identifier. -/
def seededState : PipelineState :=
  { identifiers := some { identifiers := [pmidOnlyIdentifier] } }

/-! ## Claim theorems -/

/-- Shape of `run_pipeline` once the stage selection has normalized. -/
theorem Orchestrator.run_pipeline_eq (env : OrchEnv) (settings : Settings)
    (selected : List String)
    (hnorm : Orchestrator.normalize_stages settings.stages = .ok selected) :
    Orchestrator.run_pipeline env settings =
      match Orchestrator.seed_identifiers_from_manifest env settings selected { } with
      | .error e => (.error e, [])
      | .ok st => Orchestrator.run_stages_loop env settings selected st [] := by
  unfold Orchestrator.run_pipeline
  rw [hnorm]

/-- C1: for every settings whose selected stages do not include `gather` and
whose manifest path is unset, `run_pipeline` fails fast with the
missing-input error; the returned handler trace is empty, so no stage
handler executed and no network work was attempted, and in particular it
never proceeds with an empty identifier collection. -/
theorem run_pipeline_no_gather_no_manifest_fails_fast
    (env : OrchEnv) (settings : Settings) (selected : List String)
    (hnorm : Orchestrator.normalize_stages settings.stages = .ok selected)
    (hgather : "gather" ∉ selected)
    (hman : settings.manifest_path = none) :
    Orchestrator.run_pipeline env settings =
      (.error (.missingInput
        "Gather stage not selected. Please provide manifest_path in settings or via --manifest."), []) := by
  unfold Orchestrator.run_pipeline
  rw [hnorm]
  unfold Orchestrator.seed_identifiers_from_manifest
  rw [hman]
  simp [hgather]

/-- Witness for C1: stages `[download, extract]`, no manifest path. -/
theorem run_pipeline_no_gather_no_manifest_fails_fast_witness :
    Orchestrator.run_pipeline trivialOrchEnv { stages := some ["download", "extract"] } =
      (.error (.missingInput
        "Gather stage not selected. Please provide manifest_path in settings or via --manifest."), []) :=
  run_pipeline_no_gather_no_manifest_fails_fast trivialOrchEnv
    { stages := some ["download", "extract"] } ["download", "extract"]
    (by rfl) (by decide) rfl

/-- C6: with `dry_run` set, each of the six stage handlers returns the
pipeline state unchanged (every field untouched) and raises nothing,
whatever the environment, the remaining settings and the state — so the
dry-run gate takes effect before any ensure/hydration logic or producer
call of the handler. -/
theorem dry_run_handlers_are_no_ops
    (env : OrchEnv) (settings : Settings) (state : PipelineState)
    (h : settings.dry_run = true) :
    Orchestrator.run_gather_stage env settings state = .ok state ∧
    Orchestrator.run_download_stage env settings state = .ok state ∧
    Orchestrator.run_extract_stage env settings state = .ok state ∧
    Orchestrator.run_create_analyses_stage env settings state = .ok state ∧
    Orchestrator.run_upload_stage settings state = .ok state ∧
    Orchestrator.run_sync_stage settings state = .ok state := by
  unfold Orchestrator.run_gather_stage Orchestrator.run_download_stage
    Orchestrator.run_extract_stage Orchestrator.run_create_analyses_stage
    Orchestrator.run_upload_stage Orchestrator.run_sync_stage
  simp [h]

/-- Witness for C6 at concrete dry-run settings and the empty state. -/
theorem dry_run_handlers_are_no_ops_witness :
    Orchestrator.run_gather_stage trivialOrchEnv { dry_run := true } { } = .ok { } ∧
    Orchestrator.run_download_stage trivialOrchEnv { dry_run := true } { } = .ok { } ∧
    Orchestrator.run_extract_stage trivialOrchEnv { dry_run := true } { } = .ok { } ∧
    Orchestrator.run_create_analyses_stage trivialOrchEnv { dry_run := true } { } = .ok { } ∧
    Orchestrator.run_upload_stage { dry_run := true } { } = .ok { } ∧
    Orchestrator.run_sync_stage { dry_run := true } { } = .ok { } :=
  dry_run_handlers_are_no_ops trivialOrchEnv { dry_run := true } { } rfl

/-- C3 counterexample: the stage list `[extract, download]`, whose order
differs from the canonical order, is accepted and silently normalized to
canonical order instead of being rejected as invalid configuration. -/
theorem normalize_stages_accepts_reordering :
    Orchestrator.normalize_stages (some ["extract", "download"]) =
      .ok ["download", "extract"] := by
  rfl

/-- C3 (amended): `run_pipeline` executes exactly the requested subset of
the six canonical stages in canonical order: a stage name outside the
canonical list is rejected as invalid configuration; a caller-supplied
order is accepted and normalized (the selection is the canonical list
filtered to the requested set), and a run that completes successfully has
invoked exactly the selected stages, in canonical order. -/
theorem normalize_stages_canonical_subset :
    (∀ stages, (∃ s ∈ Orchestrator.requestedStages stages,
        s ∉ Orchestrator.CANONICAL_STAGES) →
      ∃ msg, Orchestrator.normalize_stages stages = .error (.invalidConfig msg)) ∧
    (∀ stages selected, Orchestrator.normalize_stages stages = .ok selected →
      selected = Orchestrator.CANONICAL_STAGES.filter
        (fun stage => (Orchestrator.requestedSet stages).contains stage) ∧
      ∀ s ∈ Orchestrator.requestedStages stages,
        s ∈ Orchestrator.CANONICAL_STAGES) ∧
    (∀ env settings selected state,
      Orchestrator.normalize_stages settings.stages = .ok selected →
      (Orchestrator.run_pipeline env settings).1 = .ok state →
      (Orchestrator.run_pipeline env settings).2 = selected) := by
  refine ⟨?_, ?_, ?_⟩
  · intro stages ⟨s, hs, hinv⟩
    have hne : (Orchestrator.invalidStages stages).isEmpty = false := by
      rw [List.isEmpty_eq_false_iff_exists_mem]
      refine ⟨s, ?_⟩
      unfold Orchestrator.invalidStages
      exact List.mem_filter.mpr ⟨hs, by simpa using hinv⟩
    unfold Orchestrator.normalize_stages
    rw [hne]
    exact ⟨_, rfl⟩
  · intro stages selected h
    unfold Orchestrator.normalize_stages at h
    split at h
    · exact absurd h (by simp)
    · rename_i hcond
      have hempty : Orchestrator.invalidStages stages = [] := by
        rw [← List.isEmpty_iff]
        revert hcond
        cases (Orchestrator.invalidStages stages).isEmpty <;> simp
      have h2 := Except.ok.inj h
      refine ⟨h2.symm, ?_⟩
      intro s hs
      by_contra hsc
      have hmem : s ∈ Orchestrator.invalidStages stages := by
        unfold Orchestrator.invalidStages
        exact List.mem_filter.mpr ⟨hs, by simpa using hsc⟩
      rw [hempty] at hmem
      exact absurd hmem (List.not_mem_nil s)
  · intro env settings selected state hnorm hok
    have loop : ∀ (stages : List String) (st : PipelineState) (acc : List String)
        (st2 : PipelineState) (trace : List String),
        Orchestrator.run_stages_loop env settings stages st acc = (.ok st2, trace) →
        trace = acc ++ stages := by
      intro stages
      induction stages with
      | nil =>
        intro st acc st2 trace h
        unfold Orchestrator.run_stages_loop at h
        simp at h
        simp [h.2]
      | cons stage rest ih =>
        intro st acc st2 trace h
        unfold Orchestrator.run_stages_loop at h
        cases hh : Orchestrator.stage_handler env stage settings st with
        | error e => rw [hh] at h; simp at h
        | ok st3 =>
          rw [hh] at h
          have := ih st3 (acc ++ [stage]) st2 trace h
          simpa using this
    rw [Orchestrator.run_pipeline_eq env settings selected hnorm] at hok ⊢
    cases hseed : Orchestrator.seed_identifiers_from_manifest env settings selected { } with
    | error e =>
      rw [hseed] at hok
      have hok2 : (Except.error e : Except PErr PipelineState) = Except.ok state := hok
      simp at hok2
    | ok st =>
      rw [hseed] at hok
      have hok2 : (Orchestrator.run_stages_loop env settings selected st []).1 =
          Except.ok state := hok
      show (Orchestrator.run_stages_loop env settings selected st []).2 = selected
      cases hloop : Orchestrator.run_stages_loop env settings selected st [] with
      | mk r trace =>
        rw [hloop] at hok2
        cases r with
        | error e => simp at hok2
        | ok st2 => simpa using loop selected st [] st2 trace hloop

/-- Witness for C3's amended theorem: a bogus stage name is rejected, and a
successful run over reordered `[extract, download]` executes exactly
`[download, extract]`. -/
theorem normalize_stages_canonical_subset_witness :
    (∃ msg, Orchestrator.normalize_stages (some ["bogus"]) =
      .error (.invalidConfig msg)) ∧
    (Orchestrator.normalize_stages (some ["extract", "download"]) =
        .ok ["download", "extract"] →
      ∀ s ∈ Orchestrator.requestedStages (some ["extract", "download"]),
        s ∈ Orchestrator.CANONICAL_STAGES) :=
  ⟨normalize_stages_canonical_subset.1 (some ["bogus"])
      ⟨"bogus", by decide, by decide⟩,
    fun h => (normalize_stages_canonical_subset.2.1 (some ["extract", "download"])
      ["download", "extract"] h).2⟩

/-- C9: `get_ids` fails with a `ValueError` — before any HTTP request is
issued (empty request log) and with the identifier collection returned
unchanged — whenever the requested `id_type` is unsupported or some
identifier has `None` for that field. -/
theorem get_ids_invalid_input_fails_before_requests
    (env : PubMedEnv) (email tool id_type : String) (ids : List Identifier)
    (h : id_type ∉ PubMedClient.SUPPORTED_ID_TYPES ∨
      ∃ i ∈ ids, PubMedClient.getField i id_type = none) :
    ∃ e, PubMedClient.get_ids env email tool id_type ids = (.error e, ids, []) := by
  unfold PubMedClient.get_ids PubMedClient.validate_ids
  by_cases hc : id_type ∈ PubMedClient.SUPPORTED_ID_TYPES
  · rcases h with h | ⟨i, hi, hnone⟩
    · exact absurd hc h
    · have hcb : PubMedClient.SUPPORTED_ID_TYPES.contains id_type = true := by
        simpa using hc
      have hany : (ids.any fun identifier =>
          (PubMedClient.getField identifier id_type).isNone) = true := by
        rw [List.any_eq_true]
        exact ⟨i, hi, by simp [hnone]⟩
      rw [hcb, hany]
      exact ⟨_, rfl⟩
  · have hcb : PubMedClient.SUPPORTED_ID_TYPES.contains id_type = false := by
      simpa using hc
    rw [hcb]
    exact ⟨_, rfl⟩

/-- Witness for C9: an unsupported id type on the empty collection. -/
theorem get_ids_invalid_input_fails_before_requests_witness :
    ∃ e, PubMedClient.get_ids trivialPubMedEnv "user" "tool" "isbn" [] =
      (.error e, [], []) :=
  get_ids_invalid_input_fails_before_requests trivialPubMedEnv "user" "tool"
    "isbn" [] (Or.inl (by decide))

/-- C2: with cached-input hydration enabled, `_ensure_downloads`
(respectively `_ensure_bundles`), invoked without in-memory download
results (respectively bundles), reconstructs that state from the previous
stage's ResultIndex keyed by the currently-known identifiers (respectively
by the hydrated downloads), and fails with the missing-input error when
hydration yields nothing — it never hands an empty input to the stage. -/
theorem ensure_stage_inputs_hydrate_or_fail
    (env : OrchEnv) (settings : Settings) (state : PipelineState)
    (hcache : settings.use_cached_inputs = true) :
    (listTruthy state.downloads = false →
      ∀ state2, Orchestrator.ensure_identifiers env settings state = .ok state2 →
        (Orchestrator.hydrate_downloads_from_cache env settings state2.identifiers = [] →
          Orchestrator.ensure_downloads env settings state = .error (.missingInput
            "No cached download results were found for the provided identifiers. Re-run the download stage.")) ∧
        (Orchestrator.hydrate_downloads_from_cache env settings state2.identifiers ≠ [] →
          Orchestrator.ensure_downloads env settings state = .ok { state2 with
            downloads := some (Orchestrator.hydrate_downloads_from_cache env settings
              state2.identifiers) })) ∧
    (listTruthy state.bundles = false →
      ∀ state3, Orchestrator.ensure_downloads env settings state = .ok state3 →
        (Orchestrator.hydrate_bundles_from_cache env settings (state3.downloads.getD []) = [] →
          Orchestrator.ensure_bundles env settings state = .error (.missingInput
            "No cached extraction bundles were found. Re-run the extract stage.")) ∧
        (Orchestrator.hydrate_bundles_from_cache env settings (state3.downloads.getD []) ≠ [] →
          Orchestrator.ensure_bundles env settings state = .ok { state3 with
            bundles := some (Orchestrator.hydrate_bundles_from_cache env settings
              (state3.downloads.getD [])) })) := by
  constructor
  · intro hdl state2 hids
    have heq : Orchestrator.ensure_downloads env settings state =
        (if (Orchestrator.hydrate_downloads_from_cache env settings
            state2.identifiers).isEmpty then
          .error (.missingInput
            "No cached download results were found for the provided identifiers. Re-run the download stage.")
        else .ok { state2 with
          downloads := some (Orchestrator.hydrate_downloads_from_cache env settings
            state2.identifiers) }) := by
      unfold Orchestrator.ensure_downloads
      rw [hdl, hcache, hids]
      rfl
    constructor
    · intro hempty
      rw [heq, hempty]
      rfl
    · intro hne
      have hb : (Orchestrator.hydrate_downloads_from_cache env settings
          state2.identifiers).isEmpty = false := by
        cases hx : Orchestrator.hydrate_downloads_from_cache env settings
            state2.identifiers with
        | nil => exact absurd hx hne
        | cons x xs => rfl
      rw [heq, hb]
      rfl
  · intro hbd state3 hdls
    have heq : Orchestrator.ensure_bundles env settings state =
        (if (Orchestrator.hydrate_bundles_from_cache env settings
            (state3.downloads.getD [])).isEmpty then
          .error (.missingInput
            "No cached extraction bundles were found. Re-run the extract stage.")
        else .ok { state3 with
          bundles := some (Orchestrator.hydrate_bundles_from_cache env settings
            (state3.downloads.getD [])) }) := by
      unfold Orchestrator.ensure_bundles
      rw [hbd, hcache, hdls]
      rfl
    constructor
    · intro hempty
      rw [heq, hempty]
      rfl
    · intro hne
      have hb : (Orchestrator.hydrate_bundles_from_cache env settings
          (state3.downloads.getD [])).isEmpty = false := by
        cases hx : Orchestrator.hydrate_bundles_from_cache env settings
            (state3.downloads.getD []) with
        | nil => exact absurd hx hne
        | cons x xs => rfl
      rw [heq, hb]
      rfl

/-- Witness for C2: a seeded state with no cached entries — both hydrations
yield nothing and both ensures fail with the missing-input error. -/
theorem ensure_stage_inputs_hydrate_or_fail_witness :
    Orchestrator.ensure_downloads trivialOrchEnv cachedInputSettings seededState =
      .error (.missingInput
        "No cached download results were found for the provided identifiers. Re-run the download stage.") :=
  ((ensure_stage_inputs_hydrate_or_fail trivialOrchEnv cachedInputSettings
      seededState rfl).1 rfl seededState rfl).1 rfl

/-- Keys of `dictInsert`: unchanged when the key exists, appended when
new. -/
theorem dictInsert_map_fst {α : Type} (d : List (String × α)) (k : String) (v : α) :
    (dictInsert d k v).map Prod.fst =
      if d.any (fun p => p.1 == k) then d.map Prod.fst
      else d.map Prod.fst ++ [k] := by
  unfold dictInsert
  split
  · rw [List.map_map]
    apply List.map_congr_left
    intro p _
    by_cases hpk : p.1 == k
    · have : p.1 = k := by simpa using hpk
      simp [Function.comp, hpk, this]
    · simp [Function.comp, hpk]
  · simp

/-- `dictInsert` preserves distinctness of the keys. -/
theorem dictInsert_keys_nodup {α : Type} (d : List (String × α)) (k : String)
    (v : α) (hd : (d.map Prod.fst).Nodup) :
    ((dictInsert d k v).map Prod.fst).Nodup := by
  rw [dictInsert_map_fst]
  split
  · exact hd
  · rename_i hany
    have hk : k ∉ d.map Prod.fst := by
      intro hmem
      rcases List.mem_map.mp hmem with ⟨p, hp, hpk⟩
      have : d.any (fun p => p.1 == k) = true :=
        List.any_eq_true.mpr ⟨p, hp, by simp [hpk]⟩
      simp [this] at hany
    rw [List.nodup_append]
    refine ⟨hd, List.nodup_singleton k, ?_⟩
    intro a ha hb
    rw [List.mem_singleton] at hb
    exact hk (hb ▸ ha)

/-- Membership after `dictInsert`: either the freshly written pair, or an
old pair at a different key. -/
theorem mem_dictInsert {α : Type} {d : List (String × α)} {k : String}
    {v : α} {h : String} {r : α} (hm : (h, r) ∈ dictInsert d k v) :
    (h = k ∧ r = v) ∨ ((h, r) ∈ d ∧ h ≠ k) := by
  unfold dictInsert at hm
  split at hm
  · rcases List.mem_map.mp hm with ⟨p, hp, hpe⟩
    by_cases hpk : p.1 == k
    · rw [if_pos hpk] at hpe
      left
      exact ⟨(Prod.mk.injEq _ _ _ _ ▸ hpe).1.symm, (Prod.mk.injEq _ _ _ _ ▸ hpe).2.symm⟩
    · rw [if_neg hpk] at hpe
      right
      refine ⟨hpe ▸ hp, ?_⟩
      have hp1 : p.1 = h := by rw [hpe]
      have : p.1 ≠ k := by simpa using hpk
      exact hp1 ▸ this
  · rename_i hany
    rcases List.mem_append.mp hm with hm2 | hm2
    · right
      refine ⟨hm2, ?_⟩
      intro hk
      apply hany
      exact List.any_eq_true.mpr ⟨(h, r), hm2, by simp [hk]⟩
    · left
      rw [List.mem_singleton] at hm2
      exact ⟨(Prod.mk.injEq _ _ _ _ ▸ hm2).1, (Prod.mk.injEq _ _ _ _ ▸ hm2).2⟩

/-- Unfolding `hydrateInner` over a cons cell. -/
theorem hydrateInner_cons (f : String → Option DownloadResult) (i : Identifier)
    (rest : List Identifier) (d : List (String × DownloadResult)) :
    hydrateInner f (i :: rest) d =
      hydrateInner f rest (match f i.hash_id with
        | none => d
        | some result => dictInsert d i.hash_id result) := rfl

/-- `hydrateInner` on the empty identifier list. -/
theorem hydrateInner_nil (f : String → Option DownloadResult)
    (d : List (String × DownloadResult)) : hydrateInner f [] d = d := rfl

/-- `hydrateInner` preserves distinctness of the keys. -/
theorem hydrateInner_keys_nodup (f : String → Option DownloadResult)
    (idents : List Identifier) :
    ∀ d : List (String × DownloadResult), (d.map Prod.fst).Nodup →
      ((hydrateInner f idents d).map Prod.fst).Nodup := by
  induction idents with
  | nil => intro d hd; rw [hydrateInner_nil]; exact hd
  | cons i rest ih =>
    intro d hd
    rw [hydrateInner_cons]
    cases hf : f i.hash_id with
    | none => exact ih d hd
    | some v => exact ih _ (dictInsert_keys_nodup d i.hash_id v hd)

/-- After one source's inner loop, a pair is either a fresh hit of that
source at an identifier hash, or an untouched old pair. -/
theorem mem_hydrateInner (f : String → Option DownloadResult)
    (idents : List Identifier) :
    ∀ (d : List (String × DownloadResult)) (h : String) (r : DownloadResult),
      (h, r) ∈ hydrateInner f idents d →
      (h ∈ idents.map (fun i => i.hash_id) ∧ f h = some r) ∨
      ((h, r) ∈ d ∧ (h ∉ idents.map (fun i => i.hash_id) ∨ f h = none)) := by
  induction idents with
  | nil =>
    intro d h r hm
    rw [hydrateInner_nil] at hm
    exact Or.inr ⟨hm, Or.inl (by simp)⟩
  | cons i rest ih =>
    intro d h r hm
    rw [hydrateInner_cons] at hm
    cases hf : f i.hash_id with
    | none =>
      rw [hf] at hm
      rcases ih d h r hm with ⟨hmem, hfh⟩ | ⟨hmd, hcond⟩
      · exact Or.inl ⟨by simp [hmem], hfh⟩
      · rcases hcond with hnm | hfn
        · by_cases hhi : h = i.hash_id
          · exact Or.inr ⟨hmd, Or.inr (hhi ▸ hf)⟩
          · refine Or.inr ⟨hmd, Or.inl ?_⟩
            simp only [List.map_cons, List.mem_cons]
            push_neg
            exact ⟨hhi, by simpa using hnm⟩
        · exact Or.inr ⟨hmd, Or.inr hfn⟩
    | some v =>
      rw [hf] at hm
      rcases ih _ h r hm with ⟨hmem, hfh⟩ | ⟨hmd, hcond⟩
      · exact Or.inl ⟨by simp [hmem], hfh⟩
      · rcases mem_dictInsert hmd with ⟨hk, hv⟩ | ⟨hmd2, hne⟩
        · refine Or.inl ⟨by simp [hk], ?_⟩
          rw [hk, hf, hv]
        · rcases hcond with hnm | hfn
          · refine Or.inr ⟨hmd2, Or.inl ?_⟩
            simp only [List.map_cons, List.mem_cons]
            push_neg
            exact ⟨hne, by simpa using hnm⟩
          · exact Or.inr ⟨hmd2, Or.inr hfn⟩

/-- `lastSourceHitFrom` in terms of `lastSourceHit`: a later hit shadows
the accumulator. -/
theorem lastSourceHitFrom_eq (env : OrchEnv) (settings : Settings) :
    ∀ (ss : List String) (acc : Option DownloadResult) (h : String),
      lastSourceHitFrom env settings acc ss h =
        match lastSourceHit env settings ss h with
        | some v => some v
        | none => acc := by
  intro ss
  induction ss with
  | nil => intro acc h; rfl
  | cons s ss ih =>
    intro acc h
    show lastSourceHitFrom env settings
      (match env.download_index settings s h with
        | none => acc
        | some result => some result) ss h = _
    rw [ih]
    have hR : lastSourceHit env settings (s :: ss) h =
        match lastSourceHit env settings ss h with
        | some v => some v
        | none => (match env.download_index settings s h with
          | none => none
          | some result => some result) := by
      show lastSourceHitFrom env settings
        (match env.download_index settings s h with
          | none => (none : Option DownloadResult)
          | some result => some result) ss h = _
      rw [ih]
    rw [hR]
    cases lastSourceHit env settings ss h with
    | some v => rfl
    | none =>
      cases env.download_index settings s h with
      | none => rfl
      | some result => rfl

/-- Over the whole source loop, every surviving pair carries the hit of the
last-listed source that has one for that hash. -/
theorem mem_hydrate_outer (env : OrchEnv) (settings : Settings)
    (idents : List Identifier) :
    ∀ (ss : List String) (d : List (String × DownloadResult)),
      (∀ p ∈ d, p.1 ∈ idents.map (fun i => i.hash_id)) →
      ∀ (h : String) (r : DownloadResult),
        (h, r) ∈ ss.foldl
          (fun d s => hydrateInner (env.download_index settings s) idents d) d →
        h ∈ idents.map (fun i => i.hash_id) ∧
        (lastSourceHit env settings ss h = some r ∨
          (lastSourceHit env settings ss h = none ∧ (h, r) ∈ d)) := by
  intro ss
  induction ss with
  | nil =>
    intro d hd h r hm
    simp only [List.foldl_nil] at hm
    exact ⟨hd (h, r) hm, Or.inr ⟨rfl, hm⟩⟩
  | cons s ss ih =>
    intro d hd h r hm
    simp only [List.foldl_cons] at hm
    have hd2 : ∀ p ∈ hydrateInner (env.download_index settings s) idents d,
        p.1 ∈ idents.map (fun i => i.hash_id) := by
      intro p hp
      rcases mem_hydrateInner (env.download_index settings s) idents d p.1 p.2
          (by simpa using hp) with ⟨hmem, _⟩ | ⟨hmd, _⟩
      · exact hmem
      · exact hd _ hmd
    rcases ih _ hd2 h r hm with ⟨hmem, hres⟩
    refine ⟨hmem, ?_⟩
    have hcons : lastSourceHit env settings (s :: ss) h =
        match lastSourceHit env settings ss h with
        | some v => some v
        | none => (match env.download_index settings s h with
          | none => none
          | some result => some result) := by
      show lastSourceHitFrom env settings
        (match env.download_index settings s h with
          | none => (none : Option DownloadResult)
          | some result => some result) ss h = _
      rw [lastSourceHitFrom_eq]
    rcases hres with hsome | ⟨hnone, hmd⟩
    · left
      rw [hcons, hsome]
    · rcases mem_hydrateInner (env.download_index settings s) idents d h r hmd with
        ⟨_, hfh⟩ | ⟨hmd2, hcond⟩
      · left
        rw [hcons, hnone, hfh]
      · have hfn : env.download_index settings s h = none := by
          rcases hcond with hnm | hfn
          · exact absurd hmem hnm
          · exact hfn
        right
        constructor
        · rw [hcons, hnone, hfn]
        · exact hmd2

/-- The source loop preserves key distinctness. -/
theorem hydrate_outer_nodup (env : OrchEnv) (settings : Settings)
    (idents : List Identifier) :
    ∀ (ss : List String) (d : List (String × DownloadResult)),
      (d.map Prod.fst).Nodup →
      ((ss.foldl (fun d s => hydrateInner (env.download_index settings s) idents d)
        d).map Prod.fst).Nodup := by
  intro ss
  induction ss with
  | nil => intro d hd; simpa using hd
  | cons s ss ih =>
    intro d hd
    simp only [List.foldl_cons]
    exact ih _ (hydrateInner_keys_nodup _ idents d hd)

/-- C10: hydrating downloads from the cache produces at most one result per
identifier hash (the accumulated dict has pairwise-distinct hash keys, and
the returned list is exactly its values), and the entry kept for a hash is
the one from the source listed last in `settings.download_sources` among
those that hold an entry for it. -/
theorem hydrate_downloads_one_result_per_hash (env : OrchEnv)
    (settings : Settings) (idents : List Identifier) :
    ((Orchestrator.hydrate_downloads_fold env settings idents).map Prod.fst).Nodup ∧
    (∀ (h : String) (r : DownloadResult),
      (h, r) ∈ Orchestrator.hydrate_downloads_fold env settings idents →
      lastSourceHit env settings settings.download_sources h = some r) ∧
    (∀ c : Identifiers, c.identifiers = idents → idents ≠ [] →
      Orchestrator.hydrate_downloads_from_cache env settings (some c) =
        (Orchestrator.hydrate_downloads_fold env settings idents).map Prod.snd) := by
  have hbridge : Orchestrator.hydrate_downloads_fold env settings idents =
      settings.download_sources.foldl
        (fun d s => hydrateInner (env.download_index settings s) idents d) [] := rfl
  refine ⟨?_, ?_, ?_⟩
  · rw [hbridge]
    exact hydrate_outer_nodup env settings idents _ [] (by simp)
  · intro h r hm
    rw [hbridge] at hm
    rcases mem_hydrate_outer env settings idents _ [] (by simp) h r hm with
      ⟨_, hsome | ⟨_, hin⟩⟩
    · exact hsome
    · exact absurd hin (List.not_mem_nil _)
  · intro c hc hne
    have hie : idents.isEmpty = false := by
      cases idents with
      | nil => exact absurd rfl hne
      | cons a l => rfl
    show (if c.identifiers.isEmpty = true then []
      else (Orchestrator.hydrate_downloads_fold env settings c.identifiers).map Prod.snd) =
      (Orchestrator.hydrate_downloads_fold env settings idents).map Prod.snd
    rw [hc, hie]
    rfl

/-- Witness for C10: two sources both hold an entry for `hash-pmid`; the
kept entry is the one of the last-listed source `ace`. -/
theorem hydrate_downloads_one_result_per_hash_witness :
    lastSourceHit cacheOrchEnv multiSourceSettings
      multiSourceSettings.download_sources "hash-pmid" = some (cachedResult "ace") ∧
    Orchestrator.hydrate_downloads_from_cache cacheOrchEnv multiSourceSettings
      (some { identifiers := [pmidOnlyIdentifier] }) = [cachedResult "ace"] :=
  ⟨(hydrate_downloads_one_result_per_hash cacheOrchEnv multiSourceSettings
      [pmidOnlyIdentifier]).2.1 "hash-pmid" (cachedResult "ace") (by decide),
    by
      rw [(hydrate_downloads_one_result_per_hash cacheOrchEnv multiSourceSettings
        [pmidOnlyIdentifier]).2.2 { identifiers := [pmidOnlyIdentifier] } rfl
        (by decide)]
      decide⟩

/-- Every result `processSource` hands to the cache is successful. -/
theorem processSource_persisted_success (env : DownloadEnv) (s : Settings)
    (source : String) (remaining : List Identifier) :
    ∀ r ∈ (DownloadStage.processSource env s source remaining).2.1,
      r.success = true := by
  intro r hr
  simp only [DownloadStage.processSource] at hr
  split at hr
  · simp at hr
  · split at hr
    · simp at hr
    · split at hr
      · simp at hr
      · rcases List.mem_filter.mp hr with ⟨_, hs⟩
        simpa using hs

/-- The source loop only ever appends `processSource` persisted results. -/
theorem run_downloads_go_persisted_success (env : DownloadEnv) (s : Settings) :
    ∀ (sources : List String) (remaining : List Identifier)
      (collected persisted : List DownloadResult),
      (∀ r ∈ persisted, r.success = true) →
      ∀ r ∈ (DownloadStage.run_downloads_go env s sources remaining
        collected persisted).2, r.success = true := by
  intro sources
  induction sources with
  | nil =>
    intro remaining collected persisted hp r hr
    exact hp r hr
  | cons source rest ih =>
    intro remaining collected persisted hp r hr
    simp only [DownloadStage.run_downloads_go] at hr
    split at hr
    · exact hp r hr
    · refine ih _ _ _ ?_ r hr
      intro r2 hr2
      rcases List.mem_append.mp hr2 with hr2 | hr2
      · exact hp r2 hr2
      · exact processSource_persisted_success env s source remaining r2 hr2

/-- C4: `run_downloads` persists to the download cache exactly the
successful newly computed results — every result in the persisted log has
`success = true`, so a failed result is never written — and an identifier of
the missing set whose hash is not among its source's successes is carried
forward in the remaining list handed to the later sources (and, being
uncached, is recomputed on the next run). -/
theorem run_downloads_persists_only_successes (env : DownloadEnv) (s : Settings) :
    (∀ (identifiers : Identifiers) (r : DownloadResult),
      r ∈ (DownloadStage.run_downloads env s identifiers).2 →
        r.success = true) ∧
    (∀ (source : String) (remaining : List Identifier) (i : Identifier),
      s.cache_only_mode = false →
      (DownloadStage.partition_supported (env.supported_ids source)
        remaining).1.isEmpty = false →
      (env.partition_cached source (DownloadStage.partition_supported
        (env.supported_ids source) remaining).1).2.isEmpty = false →
      i ∈ (env.partition_cached source (DownloadStage.partition_supported
        (env.supported_ids source) remaining).1).2 →
      (DownloadStage.successful_hashes ((env.extractor_download source
        (env.partition_cached source (DownloadStage.partition_supported
          (env.supported_ids source) remaining).1).2).filter
        (fun result => result.success))).contains i.hash_id = false →
      i ∈ (DownloadStage.processSource env s source remaining).2.2) := by
  constructor
  · intro identifiers r hr
    exact run_downloads_go_persisted_success env s s.download_sources
      identifiers.identifiers [] [] (by intro r2 hr2; simp at hr2) r hr
  · intro source remaining i hcache hsup hmiss hmem hnot
    simp only [DownloadStage.processSource, hsup, hmiss, hcache]
    simp only [Bool.false_eq_true, if_false]
    refine List.mem_append_right _ ?_
    unfold DownloadStage.identifiers_from_hashes
    refine List.mem_filter.mpr ⟨hmem, ?_⟩
    simpa using hnot

/-- Witness for C4: one source whose extractor fails the only identifier —
nothing is persisted and the identifier is carried forward. -/
theorem run_downloads_persists_only_successes_witness :
    pmidOnlyIdentifier ∈ (DownloadStage.processSource failingDownloadEnv { }
      "pubget" [pmidOnlyIdentifier]).2.2 :=
  (run_downloads_persists_only_successes failingDownloadEnv { }).2 "pubget"
    [pmidOnlyIdentifier] pmidOnlyIdentifier rfl (by decide) (by decide)
    (by decide) (by decide)

/-- `preservesPopulated` is reflexive. -/
theorem preservesPopulated_refl (a : Identifier) : preservesPopulated a a :=
  ⟨fun _ h => h, fun _ h => h, fun _ h => h, fun _ _ h => h⟩

/-- `preservesPopulated` is transitive. -/
theorem preservesPopulated_trans {a b c : Identifier}
    (hab : preservesPopulated a b) (hbc : preservesPopulated b c) :
    preservesPopulated a c :=
  ⟨fun v h => hbc.1 v (hab.1 v h), fun v h => hbc.2.1 v (hab.2.1 v h),
    fun v h => hbc.2.2.1 v (hab.2.2.1 v h),
    fun k v h => hbc.2.2.2 k v (hab.2.2.2 k v h)⟩

/-- A present key keeps its value when entries are appended on the right. -/
theorem dictGet_append_left {α : Type} (d d2 : List (String × α)) (k : String)
    (v : α) (h : dictGet d k = some v) : dictGet (d ++ d2) k = some v := by
  unfold dictGet at h ⊢
  cases hf : List.find? (fun p => p.1 == k) d with
  | none => rw [hf] at h; exact absurd h (by simp)
  | some p =>
    rw [hf] at h
    rw [List.find?_append, hf]
    simpa using h

/-- `dictSetdefault` never overwrites a present key. -/
theorem dictGet_dictSetdefault {α : Type} (d : List (String × α))
    (k k0 : String) (v2 v : α) (h : dictGet d k0 = some v) :
    dictGet (dictSetdefault d k v2) k0 = some v := by
  unfold dictSetdefault
  split
  · exact h
  · exact dictGet_append_left d [(k, v2)] k0 v h

/-- Folding enrichment steps preserves populated fields. -/
theorem foldl_preservesPopulated {β : Type} (step : Identifier → β → Identifier)
    (hstep : ∀ a x, preservesPopulated a (step a x)) :
    ∀ (l : List β) (a : Identifier), preservesPopulated a (l.foldl step a) := by
  intro l
  induction l with
  | nil => intro a; exact preservesPopulated_refl a
  | cons x xs ih =>
    intro a
    exact preservesPopulated_trans (hstep a x) (ih (step a x))

/-- `_store_extra_metadata` preserves populated fields and present keys. -/
theorem store_extra_metadata_preserves (a : Identifier) (record : IdconvRecord) :
    preservesPopulated a (PubMedClient.store_extra_metadata a record) := by
  have hstep : ∀ (x : Identifier) (fv : String × Option String),
      preservesPopulated x (if strTruthy fv.2 then
        { x with other_ids := dictSetdefault x.other_ids fv.1 (fv.2.getD "") }
      else x) := by
    intro x fv
    split
    · exact ⟨fun v h => h, fun v h => h, fun v h => h,
        fun k v h => dictGet_dictSetdefault x.other_ids fv.1 k (fv.2.getD "") v h⟩
    · exact preservesPopulated_refl x
  exact foldl_preservesPopulated _ hstep
    [("mid", record.mid), ("aiid", record.aiid), ("version", record.version),
      ("release-date", record.release_date)] a

/-- `apply_record_fields` fills only missing canonical fields. -/
theorem apply_record_fields_preserves (a : Identifier) (record : IdconvRecord) :
    preservesPopulated a (PubMedClient.apply_record_fields a record) := by
  have hpm : ∀ x : Identifier, preservesPopulated x
      (if strTruthy record.pmid && x.pmid.isNone then
        { x with pmid := some (record.pmid.getD "") } else x) := by
    intro x
    split
    · rename_i hcond
      refine ⟨?_, fun v h => h, fun v h => h, fun k v h => h⟩
      intro v h
      rw [h] at hcond
      simp at hcond
    · exact preservesPopulated_refl x
  have hpc : ∀ x : Identifier, preservesPopulated x
      (if strTruthy record.pmcid && x.pmcid.isNone then
        { x with pmcid := some (record.pmcid.getD "") } else x) := by
    intro x
    split
    · rename_i hcond
      refine ⟨fun v h => h, ?_, fun v h => h, fun k v h => h⟩
      intro v h
      rw [h] at hcond
      simp at hcond
    · exact preservesPopulated_refl x
  have hdoi : ∀ x : Identifier, preservesPopulated x
      (if strTruthy record.doi && x.doi.isNone then
        { x with doi := some (record.doi.getD "") } else x) := by
    intro x
    split
    · rename_i hcond
      refine ⟨fun v h => h, fun v h => h, ?_, fun k v h => h⟩
      intro v h
      rw [h] at hcond
      simp at hcond
    · exact preservesPopulated_refl x
  exact preservesPopulated_trans (hpm a)
    (preservesPopulated_trans (hpc _)
      (preservesPopulated_trans (hdoi _) (store_extra_metadata_preserves _ record)))

/-- One `_apply_records` iteration keeps the collection length and
preserves populated fields at every position. -/
theorem apply_one_preserves (env : PubMedEnv) (id_type : String)
    (ids : List Identifier) (record : IdconvRecord) :
    (PubMedClient.apply_one env id_type ids record).length = ids.length ∧
    ∀ (j : Nat) (a : Identifier), ids[j]? = some a →
      ∃ b, (PubMedClient.apply_one env id_type ids record)[j]? = some b ∧
        preservesPopulated a b := by
  unfold PubMedClient.apply_one
  split
  · exact ⟨rfl, fun j a h => ⟨a, h, preservesPopulated_refl a⟩⟩
  · split
    · exact ⟨rfl, fun j a h => ⟨a, h, preservesPopulated_refl a⟩⟩
    · cases hl : PubMedClient.lookup_record_target env id_type ids
          (record.requested_id.getD "") with
      | none => exact ⟨rfl, fun j a h => ⟨a, h, preservesPopulated_refl a⟩⟩
      | some i =>
        show (match ids[i]? with
          | none => ids
          | some identifier =>
            ids.set i (PubMedClient.apply_record_fields identifier record)).length =
            ids.length ∧
          ∀ (j : Nat) (a : Identifier), ids[j]? = some a →
            ∃ b, (match ids[i]? with
              | none => ids
              | some identifier =>
                ids.set i (PubMedClient.apply_record_fields identifier record))[j]? =
                some b ∧ preservesPopulated a b
        cases hi : ids[i]? with
        | none => exact ⟨rfl, fun j a h => ⟨a, h, preservesPopulated_refl a⟩⟩
        | some x =>
          refine ⟨List.length_set ids i _, ?_⟩
          intro j a hj
          by_cases hji : j = i
          · subst hji
            have hax : a = x := by
              rw [hj] at hi
              exact Option.some.inj hi
            have hlt : j < ids.length := by
              rcases List.getElem?_eq_some_iff.mp hj with ⟨hlt, _⟩
              exact hlt
            refine ⟨PubMedClient.apply_record_fields x record, ?_, ?_⟩
            · rw [List.getElem?_set_self hlt]
            · rw [hax]
              exact apply_record_fields_preserves x record
          · refine ⟨a, ?_, preservesPopulated_refl a⟩
            rw [List.getElem?_set_ne (fun he => hji he.symm)]
            exact hj

/-- C7: applying id-converter records enriches the collection in place
without ever overwriting: the collection keeps its length, and at every
position a pmid, pmcid or doi that was populated before keeps its value,
and a key already present in `other_ids` keeps its value — only missing
fields are filled. -/
theorem apply_records_never_overwrites (env : PubMedEnv) (id_type : String)
    (records : List IdconvRecord) (ids : List Identifier) (j : Nat)
    (a : Identifier) (hj : ids[j]? = some a) :
    ∃ b, (PubMedClient.apply_records env id_type ids records)[j]? = some b ∧
      (∀ v, a.pmid = some v → b.pmid = some v) ∧
      (∀ v, a.pmcid = some v → b.pmcid = some v) ∧
      (∀ v, a.doi = some v → b.doi = some v) ∧
      (∀ k v, dictGet a.other_ids k = some v → dictGet b.other_ids k = some v) := by
  have main : ∀ (rs : List IdconvRecord) (l : List Identifier) (j : Nat)
      (a : Identifier), l[j]? = some a →
      ∃ b, (PubMedClient.apply_records env id_type l rs)[j]? = some b ∧
        preservesPopulated a b := by
    intro rs
    induction rs with
    | nil =>
      intro l j a h
      exact ⟨a, h, preservesPopulated_refl a⟩
    | cons r rest ih =>
      intro l j a h
      rcases (apply_one_preserves env id_type l r).2 j a h with ⟨b, hb, hab⟩
      rcases ih (PubMedClient.apply_one env id_type l r) j b hb with ⟨c, hc, hbc⟩
      exact ⟨c, hc, preservesPopulated_trans hab hbc⟩
  rcases main records ids j a hj with ⟨b, hb, hab⟩
  exact ⟨b, hb, hab.1, hab.2.1, hab.2.2.1, hab.2.2.2⟩

/-- Witness for C7: a record offering a conflicting doi and `mid` leaves the
populated doi and the present `mid` key unchanged. -/
theorem apply_records_never_overwrites_witness :
    ∃ b, (PubMedClient.apply_records lookupFirstEnv "doi" [doiOnlyIdentifier]
        [sampleRecord])[0]? = some b ∧
      (∀ v, doiOnlyIdentifier.pmid = some v → b.pmid = some v) ∧
      (∀ v, doiOnlyIdentifier.pmcid = some v → b.pmcid = some v) ∧
      (∀ v, doiOnlyIdentifier.doi = some v → b.doi = some v) ∧
      (∀ k v, dictGet doiOnlyIdentifier.other_ids k = some v →
        dictGet b.other_ids k = some v) :=
  apply_records_never_overwrites lookupFirstEnv "doi" [sampleRecord]
    [doiOnlyIdentifier] 0 doiOnlyIdentifier rfl

/-- The digit characters: value recovered by `toNat`. -/
theorem char_toNat_ofNat_digit (m : Nat) (h : m < 10) :
    (Char.ofNat (m + 48)).toNat = m + 48 := by
  interval_cases m <;> decide

/-- The digit characters satisfy `isDigit`. -/
theorem char_isDigit_ofNat_digit (m : Nat) (h : m < 10) :
    (Char.ofNat (m + 48)).isDigit = true := by
  interval_cases m <;> decide

/-- The fuel of `pyDigitsOfNatAux` is irrelevant once above the input. -/
theorem pyDigitsOfNatAux_irrel :
    ∀ n f1 f2 : Nat, n < f1 → n < f2 →
      pyDigitsOfNatAux f1 n = pyDigitsOfNatAux f2 n := by
  intro n
  induction n using Nat.strong_induction_on with
  | _ n ih =>
    intro f1 f2 h1 h2
    cases f1 with
    | zero => omega
    | succ g1 =>
      cases f2 with
      | zero => omega
      | succ g2 =>
        show (if n < 10 then [Char.ofNat (n + 48)]
            else pyDigitsOfNatAux g1 (n / 10) ++ [Char.ofNat (n % 10 + 48)]) =
          (if n < 10 then [Char.ofNat (n + 48)]
            else pyDigitsOfNatAux g2 (n / 10) ++ [Char.ofNat (n % 10 + 48)])
        split
        · rfl
        · rename_i hn
          have hdiv : n / 10 < n := Nat.div_lt_self (by omega) (by omega)
          rw [ih (n / 10) hdiv g1 g2 (by omega) (by omega)]

/-- Recurrence of `pyDigitsOfNat`. -/
theorem pyDigitsOfNat_eq (n : Nat) :
    pyDigitsOfNat n = if n < 10 then [Char.ofNat (n + 48)]
      else pyDigitsOfNat (n / 10) ++ [Char.ofNat (n % 10 + 48)] := by
  show (if n < 10 then [Char.ofNat (n + 48)]
    else pyDigitsOfNatAux n (n / 10) ++ [Char.ofNat (n % 10 + 48)]) = _
  split
  · rfl
  · rename_i hn
    have hdiv : n / 10 < n := Nat.div_lt_self (by omega) (by omega)
    rw [pyDigitsOfNatAux_irrel (n / 10) n (n / 10 + 1) (by omega) (by omega)]
    rfl

/-- Decimal printing never yields the empty digit list. -/
theorem pyDigitsOfNat_ne_nil (n : Nat) : pyDigitsOfNat n ≠ [] := by
  rw [pyDigitsOfNat_eq]
  split
  · simp
  · simp

/-- Every printed character is a decimal digit. -/
theorem pyDigitsOfNat_all_digits :
    ∀ n : Nat, ∀ c ∈ pyDigitsOfNat n, c.isDigit = true := by
  intro n
  induction n using Nat.strong_induction_on with
  | _ n ih =>
    intro c hc
    rw [pyDigitsOfNat_eq] at hc
    split at hc
    · rename_i h
      rw [List.mem_singleton] at hc
      subst hc
      exact char_isDigit_ofNat_digit n h
    · rename_i h
      rcases List.mem_append.mp hc with hc | hc
      · exact ih (n / 10) (Nat.div_lt_self (by omega) (by omega)) c hc
      · rw [List.mem_singleton] at hc
        subst hc
        exact char_isDigit_ofNat_digit (n % 10) (Nat.mod_lt n (by omega))

/-- Printing then re-reading the digits recovers the number. -/
theorem pyIntOfDigits_pyStrOfNat :
    ∀ n : Nat, pyIntOfDigits (pyStrOfNat n) = n := by
  intro n
  induction n using Nat.strong_induction_on with
  | _ n ih =>
    show pyIntOfDigits ⟨pyDigitsOfNat n⟩ = n
    rw [pyDigitsOfNat_eq]
    split
    · rename_i h
      show 0 * 10 + ((Char.ofNat (n + 48)).toNat - 48) = n
      rw [char_toNat_ofNat_digit n h]
      omega
    · rename_i h
      have heq : pyIntOfDigits ⟨pyDigitsOfNat (n / 10) ++ [Char.ofNat (n % 10 + 48)]⟩ =
          (pyIntOfDigits ⟨pyDigitsOfNat (n / 10)⟩) * 10 +
            ((Char.ofNat (n % 10 + 48)).toNat - 48) := by
        show (pyDigitsOfNat (n / 10) ++ [Char.ofNat (n % 10 + 48)]).foldl
          (fun n c => n * 10 + (c.toNat - 48)) 0 = _
        rw [List.foldl_append]
        rfl
      rw [heq]
      have ihd := ih (n / 10) (Nat.div_lt_self (by omega) (by omega))
      rw [show pyIntOfDigits ⟨pyDigitsOfNat (n / 10)⟩ = n / 10 from ihd]
      rw [char_toNat_ofNat_digit (n % 10) (Nat.mod_lt n (by omega))]
      omega

/-- A positive number never prints with a leading zero. -/
theorem pyDigitsOfNat_head_ne_zero :
    ∀ n : Nat, n ≠ 0 → (pyDigitsOfNat n).head? ≠ some (Char.ofNat 48) := by
  intro n
  induction n using Nat.strong_induction_on with
  | _ n ih =>
    intro hn
    rw [pyDigitsOfNat_eq]
    split
    · rename_i h
      intro hc
      have h2 : Char.ofNat (n + 48) = Char.ofNat 48 := by simpa using hc
      have h3 := congrArg Char.toNat h2
      rw [char_toNat_ofNat_digit n h] at h3
      have h4 : (Char.ofNat 48).toNat = 48 := by decide
      omega
    · rename_i h
      have hne := pyDigitsOfNat_ne_nil (n / 10)
      have ihh := ih (n / 10) (Nat.div_lt_self (by omega) (by omega)) (by
        intro h0
        have : n < 10 := by omega
        exact h this)
      cases hl : pyDigitsOfNat (n / 10) with
      | nil => exact absurd hl hne
      | cons a l =>
        rw [hl] at ihh
        simpa using ihh

/-- The printed string passes Python's digit test. -/
theorem pyIsDigit_pyStrOfNat (n : Nat) : pyIsDigit (pyStrOfNat n) = true := by
  show (!(pyDigitsOfNat n).isEmpty && (pyDigitsOfNat n).all Char.isDigit) = true
  rw [Bool.and_eq_true]
  constructor
  · cases hl : pyDigitsOfNat n with
    | nil => exact absurd hl (pyDigitsOfNat_ne_nil n)
    | cons a l => rfl
  · rw [List.all_eq_true]
    intro c hc
    exact pyDigitsOfNat_all_digits n c hc

/-- C8: the pubget lookup key derived from a PMCID string is the trimmed,
`PMC`-prefix-stripped digit string with leading zeros removed (same numeric
value, all digits, no leading zero unless the key is `"0"`), `" PMC00123 "`
yields `"123"`, and a value whose remainder after prefix stripping is not
all digits yields no lookup key. -/
theorem pmcid_lookup_key_normalization (s : String) :
    (pyIsDigit (pmcidRemainder s) = false →
      PubgetExtractor.normalize_pmcid (some s) = none) ∧
    (pyIsDigit (pmcidRemainder s) = true →
      ∃ k, PubgetExtractor.normalize_pmcid (some s) = some k ∧
        pyIsDigit k = true ∧
        pyIntOfDigits k = pyIntOfDigits (pmcidRemainder s) ∧
        (k.data.head? = some (Char.ofNat 48) → k = "0")) ∧
    PubgetExtractor.normalize_pmcid (some " PMC00123 ") = some "123" := by
  have hbr : PubgetExtractor.normalize_pmcid (some s) =
      (if s == "" then none
      else if !(pyIsDigit (pmcidRemainder s)) then none
      else some (pyStrOfNat (pyIntOfDigits (pmcidRemainder s)))) := rfl
  refine ⟨?_, ?_, by decide⟩
  · intro hdig
    rw [hbr, hdig]
    split <;> rfl
  · intro hdig
    by_cases hs : s == ""
    · have hse : s = "" := by simpa using hs
      subst hse
      exact absurd hdig (by decide)
    · refine ⟨pyStrOfNat (pyIntOfDigits (pmcidRemainder s)), ?_, ?_, ?_, ?_⟩
      · rw [hbr, hdig]
        simp [hs]
      · exact pyIsDigit_pyStrOfNat _
      · exact pyIntOfDigits_pyStrOfNat _
      · intro hh
        by_cases h0 : pyIntOfDigits (pmcidRemainder s) = 0
        · rw [h0]
          rfl
        · refine absurd hh ?_
          have h1 := pyDigitsOfNat_head_ne_zero (pyIntOfDigits (pmcidRemainder s)) h0
          simpa [pyStrOfNat] using h1

/-- Witness for C8: the claim's example and a non-digit remainder. -/
theorem pmcid_lookup_key_normalization_witness :
    PubgetExtractor.normalize_pmcid (some " PMC00123 ") = some "123" ∧
    PubgetExtractor.normalize_pmcid (some "PMC12X3") = none :=
  ⟨(pmcid_lookup_key_normalization " PMC00123 ").2.2,
    (pmcid_lookup_key_normalization "PMC12X3").1 (by decide)⟩

/-- `setResult` keeps the `results_by_index` invariant when the written
result carries the identifier at its position. -/
theorem resultInv_setResult (identifiers : Identifiers)
    (f : Nat → Option DownloadResult) (i : Nat) (r : DownloadResult)
    (hf : resultInv identifiers f)
    (hr : identifiers.identifiers[i]? = some r.identifier) :
    resultInv identifiers (PubgetExtractor.setResult f i r) := by
  intro idx r2 h
  unfold PubgetExtractor.setResult at h
  by_cases hij : (idx == i) = true
  · rw [if_pos hij] at h
    have hrr : r = r2 := Option.some.inj h
    have hidx : idx = i := by simpa using hij
    rw [hidx, ← hrr]
    exact hr
  · rw [if_neg hij] at h
    exact hf idx r2 h

/-- Folding invariant-preserving writes keeps the invariant. -/
theorem resultInv_foldl {β : Type} (identifiers : Identifiers)
    (step : (Nat → Option DownloadResult) → β → (Nat → Option DownloadResult))
    (hstep : ∀ g x, resultInv identifiers g → resultInv identifiers (step g x)) :
    ∀ (l : List β) (g : Nat → Option DownloadResult),
      resultInv identifiers g → resultInv identifiers (l.foldl step g) := by
  intro l
  induction l with
  | nil => intro g hg; exact hg
  | cons x xs ih =>
    intro g hg
    simp only [List.foldl_cons]
    exact ih (step g x) (hstep g x hg)

/-- `failAll` keeps the `results_by_index` invariant. -/
theorem resultInv_failAll (identifiers : Identifiers)
    (pmcid_map : List (String × List Nat)) (message : String)
    (f : Nat → Option DownloadResult) (hf : resultInv identifiers f) :
    resultInv identifiers
      (PubgetExtractor.failAll identifiers pmcid_map message f) := by
  refine resultInv_foldl identifiers _ ?_ pmcid_map f hf
  intro g p hg
  refine resultInv_foldl identifiers _ ?_ p.2 g hg
  intro g2 idx hg2
  cases hj : identifiers.identifiers[idx]? with
  | none => simpa [hj] using hg2
  | some identifier =>
    exact resultInv_setResult identifiers g2 idx _ hg2 (by rw [hj]; rfl)

/-- `assignArticles` keeps the `results_by_index` invariant. -/
theorem resultInv_assignArticles (env : PubgetEnv) (identifiers : Identifiers)
    (pmcid_map : List (String × List Nat)) (article_index : List (String × String))
    (combined_warning : Option String)
    (f : Nat → Option DownloadResult) (hf : resultInv identifiers f) :
    resultInv identifiers
      (PubgetExtractor.assignArticles env identifiers pmcid_map article_index
        combined_warning f) := by
  refine resultInv_foldl identifiers _ ?_ pmcid_map f hf
  intro g p hg
  refine resultInv_foldl identifiers _ ?_ p.2 g hg
  intro g2 idx hg2
  cases hj : identifiers.identifiers[idx]? with
  | none => simpa [hj] using hg2
  | some identifier =>
    cases hdir : dictGet article_index p.1 with
    | none =>
      exact resultInv_setResult identifiers g2 idx _ hg2 (by rw [hj]; rfl)
    | some dir =>
      exact resultInv_setResult identifiers g2 idx _ hg2 (by rw [hj]; rfl)

/-- `_ordered_results` returns one result per input position, carrying that
position's identifier. -/
theorem ordered_results_spec (identifiers : Identifiers)
    (f : Nat → Option DownloadResult) (msg : String)
    (hf : resultInv identifiers f) :
    (PubgetExtractor.ordered_results identifiers f msg).length =
      identifiers.identifiers.length ∧
    ∀ (k : Nat) (a : Identifier), identifiers.identifiers[k]? = some a →
      ∃ r, (PubgetExtractor.ordered_results identifiers f msg)[k]? = some r ∧
        r.identifier = a := by
  constructor
  · show (identifiers.identifiers.enum.map _).length = _
    rw [List.length_map]
    simp [List.enum]
  · intro k a hk
    have h1 : identifiers.identifiers.enum[k]? = some (k, a) := by
      show (List.enumFrom 0 identifiers.identifiers)[k]? = some (k, a)
      rw [List.getElem?_enumFrom]
      rw [hk]
      simp
    cases hfk : f k with
    | some r =>
      refine ⟨r, ?_, ?_⟩
      · unfold PubgetExtractor.ordered_results
        rw [List.getElem?_map, h1]
        simp [hfk]
      · have h2 := hf k r hfk
        rw [hk] at h2
        exact (Option.some.inj h2).symm
    | none =>
      refine ⟨PubgetExtractor.build_failure a msg, ?_, rfl⟩
      unfold PubgetExtractor.ordered_results
      rw [List.getElem?_map, h1]
      simp [hfk]

/-- `buildPmcidMap` succeeds when every identifier has a valid PMCID. -/
theorem buildPmcidMap_ok :
    ∀ (pairs : List (Nat × Identifier)) (m : List (String × List Nat)),
      (∀ p ∈ pairs, (PubgetExtractor.normalize_pmcid p.2.pmcid).isSome = true) →
      ∃ m2, PubgetExtractor.buildPmcidMap pairs m = .ok m2 := by
  intro pairs
  induction pairs with
  | nil => intro m _; exact ⟨m, rfl⟩
  | cons p rest ih =>
    obtain ⟨index, identifier⟩ := p
    intro m hp
    have h1 : (PubgetExtractor.normalize_pmcid identifier.pmcid).isSome = true :=
      hp (index, identifier) (List.mem_cons_self _ rest)
    cases hn : PubgetExtractor.normalize_pmcid identifier.pmcid with
    | none => rw [hn] at h1; simp at h1
    | some normalized =>
      have hcons : PubgetExtractor.buildPmcidMap ((index, identifier) :: rest) m =
          PubgetExtractor.buildPmcidMap rest
            (PubgetExtractor.pmcidMapStep m normalized index) := by
        show (match PubgetExtractor.normalize_pmcid identifier.pmcid with
          | none => (Except.error (PErr.assertionError
              "Identifiers must include PMCIDs") :
              Except PErr (List (String × List Nat)))
          | some normalized => PubgetExtractor.buildPmcidMap rest
              (PubgetExtractor.pmcidMapStep m normalized index)) = _
        rw [hn]
      rw [hcons]
      exact ih _ (fun q hq => hp q (List.mem_cons_of_mem _ hq))

/-- C5 (amended): for a non-empty identifier collection in which every
identifier carries a valid PMCID, `PubgetExtractor.download` returns one
`DownloadResult` per input identifier, in input order, the result at each
position carrying that position's identifier (with its success/failure
tag). -/
theorem pubget_download_one_result_per_input (env : PubgetEnv)
    (ids : Identifiers) (hne : ids.identifiers ≠ [])
    (hpm : ∀ i ∈ ids.identifiers,
      (PubgetExtractor.normalize_pmcid i.pmcid).isSome = true) :
    ∃ l, PubgetExtractor.download env ids = .ok l ∧
      l.length = ids.identifiers.length ∧
      ∀ (k : Nat) (a : Identifier), ids.identifiers[k]? = some a →
        ∃ r, l[k]? = some r ∧ r.identifier = a := by
  have hie : ids.identifiers.isEmpty = false := by
    cases hl : ids.identifiers with
    | nil => exact absurd hl hne
    | cons a l => rfl
  have hpairs : ∀ p ∈ ids.identifiers.enum,
      (PubgetExtractor.normalize_pmcid p.2.pmcid).isSome = true := by
    intro p hp
    obtain ⟨i, a⟩ := p
    rw [List.mk_mem_enum_iff_getElem?] at hp
    exact hpm a (List.getElem?_mem hp)
  obtain ⟨m, hm⟩ := buildPmcidMap_ok ids.identifiers.enum [] hpairs
  have hshape : ∃ f, resultInv ids f ∧ ∃ msg,
      PubgetExtractor.download env ids =
        .ok (PubgetExtractor.ordered_results ids f msg) := by
    unfold PubgetExtractor.download
    rw [hie, hm]
    simp only []
    have hinv0 : resultInv ids (fun _ => none) := by
      intro idx r h
      simp at h
    by_cases hmp : m.isEmpty = true
    · rw [hmp]
      exact ⟨_, hinv0, _, rfl⟩
    · have hmp2 : m.isEmpty = false := by
        revert hmp
        cases m.isEmpty <;> simp
      rw [hmp2]
      cases hdl : env.download_pmcids
          (((m.map Prod.fst).mergeSort (fun a b => a ≤ b)).map pyIntOfDigits) with
      | error exc =>
        exact ⟨_, resultInv_failAll ids m _ _ hinv0, _, rfl⟩
      | ok pr =>
        obtain ⟨articlesets_dir, download_code⟩ := pr
        simp only []
        by_cases hdc : (download_code == ExitCode.ERROR) = true
        · rw [hdc]
          exact ⟨_, resultInv_failAll ids m _ _ hinv0, _, rfl⟩
        · have hdc2 : (download_code == ExitCode.ERROR) = false := by
            revert hdc
            cases download_code == ExitCode.ERROR <;> simp
          rw [hdc2]
          cases hex : env.extract_articles articlesets_dir with
          | error exc =>
            exact ⟨_, resultInv_failAll ids m _ _ hinv0, _, rfl⟩
          | ok pr2 =>
            obtain ⟨articles_dir, extract_code⟩ := pr2
            simp only []
            by_cases hec : (extract_code == ExitCode.ERROR) = true
            · rw [hec]
              exact ⟨_, resultInv_failAll ids m _ _ hinv0, _, rfl⟩
            · have hec2 : (extract_code == ExitCode.ERROR) = false := by
                revert hec
                cases extract_code == ExitCode.ERROR <;> simp
              rw [hec2]
              exact ⟨_, resultInv_assignArticles env ids m _ _ _ hinv0, _, rfl⟩
  obtain ⟨f, hinv, msg, hdl⟩ := hshape
  obtain ⟨hlen, hpos⟩ := ordered_results_spec ids f msg hinv
  exact ⟨PubgetExtractor.ordered_results ids f msg, hdl, hlen, hpos⟩

/-- Witness for C5's amended theorem: a singleton collection with a valid
PMCID yields exactly one result carrying that identifier. -/
theorem pubget_download_one_result_per_input_witness :
    ∃ l, PubgetExtractor.download trivialPubgetEnv
        { identifiers := [pmcidIdentifier] } = .ok l ∧
      l.length = 1 ∧
      ∀ (k : Nat) (a : Identifier),
        ([pmcidIdentifier] : List Identifier)[k]? = some a →
        ∃ r, l[k]? = some r ∧ r.identifier = a :=
  pubget_download_one_result_per_input trivialPubgetEnv
    { identifiers := [pmcidIdentifier] } (by decide) (by decide)

/-- C5 counterexample: a non-empty collection containing an identifier
without a PMCID makes `download` raise the `AssertionError` of the pmcid-map
loop instead of returning a result list, so no list with one result per
input identifier is returned. -/
theorem pubget_download_no_pmcid_asserts :
    PubgetExtractor.download trivialPubgetEnv
        { identifiers := [doiOnlyIdentifier] } =
      .error (.assertionError "Identifiers must include PMCIDs") ∧
    (∀ l, PubgetExtractor.download trivialPubgetEnv
        { identifiers := [doiOnlyIdentifier] } ≠ .ok l) ∧
    ([doiOnlyIdentifier] : List Identifier).length = 1 := by
  refine ⟨rfl, ?_, rfl⟩
  intro l h
  rw [show PubgetExtractor.download trivialPubgetEnv
      { identifiers := [doiOnlyIdentifier] } =
    .error (.assertionError "Identifiers must include PMCIDs") from rfl] at h
  exact absurd h (by simp)

end Ingestion
